import Mathlib

/-!
Verification development for the idissend stage-transition engine.

The Python source is shallowly embedded: the filesystem is a flat list of
paths tagged as file or directory, shutil.move / shutil.rmtree / os.rename
are modelled by their documented semantics, and each translated function
mirrors the control flow of its Python original (core.py, stages.py,
pipeline.py). Exceptions are modelled with an Except-style error type whose
constructors correspond to the exception classes declared in the source.
-/

namespace Idissend

/-- Kind of a filesystem node: a plain file or a directory. -/
inductive NodeKind where
  | file : NodeKind
  | dir : NodeKind
deriving DecidableEq, Repr

/-- Flat filesystem model: a list of (path, kind) entries. A path is the list
of its segments from the root. Well-formed states list each path at most
once and list every ancestor directory of every entry. -/
structure FS where
  entries : List (List String × NodeKind)
deriving DecidableEq, Repr

/-- Boolean test that path p is a prefix of path q (q lies at or under p). -/
def isUnder : List String → List String → Bool
  | [], _ => true
  | _ :: _, [] => false
  | a :: as, b :: bs => a == b && isUnder as bs

/-- Last segment of a path, as os.path.basename; empty string for the root. -/
def basename : List String → String
  | [] => ""
  | [x] => x
  | _ :: xs => basename xs

/-- Kind of the node at a path, if present (first matching entry). -/
def FS.lookup (fs : FS) (p : List String) : Option NodeKind :=
  (fs.entries.find? (fun e => e.1 == p)).map (fun e => e.2)

/-- Model of os.path.exists. -/
def FS.pathExists (fs : FS) (p : List String) : Bool :=
  (fs.lookup p).isSome

/-- Model of os.path.isdir. -/
def FS.isDir (fs : FS) (p : List String) : Bool :=
  fs.lookup p == some .dir

/-- Reroot a single path: if it lies under src, replace that prefix by dst. -/
def reroot (src dst p : List String) : List String :=
  if isUnder src p then dst ++ p.drop src.length else p

/-- Rename the subtree at src to dst: every entry at or under src is
rerooted, all other entries are untouched. -/
def FS.rename (fs : FS) (src dst : List String) : FS :=
  ⟨fs.entries.map (fun e => (reroot src dst e.1, e.2))⟩

/-- Errors of the OSError family raised by os / shutil calls. -/
inductive OSErr where
  | destinationExists (p : List String)
  | moveIntoItself
  | fileNotFound
  | notADirectory
deriving DecidableEq, Repr

/-- Printable text of an OSError, used when it is wrapped by an
idissend exception. -/
def osErrText : OSErr → String
  | .destinationExists _ => "Destination path already exists"
  | .moveIntoItself => "Cannot move a directory into itself"
  | .fileNotFound => "FileNotFoundError"
  | .notADirectory => "NotADirectoryError"

/-- Model of os.rename as used by shutil.move: the source must exist and the
parent of the destination must be a directory; the destination itself is
known not to exist at the call sites modelled here. -/
def osRename (fs : FS) (src dst : List String) : Except OSErr FS :=
  if fs.pathExists src then
    if fs.isDir dst.dropLast then .ok (fs.rename src dst)
    else .error .fileNotFound
  else .error .fileNotFound

/-- Model of shutil.move(src, dst): when dst is an existing directory the
source is moved inside it under its basename, failing when that real
destination already exists or when dst lies inside src; otherwise the
source is renamed to dst directly. -/
def shutilMove (fs : FS) (src dst : List String) : Except OSErr FS :=
  if fs.isDir dst then
    if isUnder src dst then .error .moveIntoItself
    else
      let realDst := dst ++ [basename src]
      if fs.pathExists realDst then .error (.destinationExists realDst)
      else osRename fs src realDst
  else if fs.pathExists dst then .error .notADirectory
  else osRename fs src dst

/-- Model of shutil.rmtree: removes the directory at p together with
everything under it; raises when p is a file or absent. -/
def shutilRmtree (fs : FS) (p : List String) : Except OSErr FS :=
  match fs.lookup p with
  | some .dir => .ok ⟨fs.entries.filter (fun e => !(isUnder p e.1))⟩
  | some .file => .error .notADirectory
  | none => .error .fileNotFound

/-- Person with contact details (core.py). -/
structure Person where
  name : String
  email : String
deriving DecidableEq, Repr

/-- Stream: a single route that incoming data goes through (core.py). -/
structure Stream where
  name : String
  output_folder : List String
  idis_project : String
  pims_key : String
  contact : Person
deriving DecidableEq, Repr

/-- Stage: a distinct step in the pipeline holding studies per stream
(core.py). -/
structure Stage where
  name : String
  path : List String
  streams : List Stream
deriving DecidableEq, Repr

/-- Study: a folder of files that belong together, viewed as located in a
stream of a stage (core.py). -/
structure Study where
  name : String
  stream : Stream
  stage : Stage
deriving DecidableEq, Repr

/-- Stage.get_path_for_stream: folder where data for the stream is. -/
def Stage.get_path_for_stream (self : Stage) (stream : Stream) : List String :=
  self.path ++ [stream.name]

/-- Stage.get_path_for_study: folder where data for the study is. -/
def Stage.get_path_for_study (self : Stage) (study : Study) : List String :=
  self.get_path_for_stream study.stream ++ [study.name]

/-- Study.path: full path to the folder holding this study's data. -/
def Study.path (s : Study) : List String :=
  s.stage.get_path_for_study s

/-- Names of the immediate children of a path, as Path.glob of a single
star lists the entries of a directory. -/
def FS.childrenNames (fs : FS) (p : List String) : List String :=
  fs.entries.filterMap
    (fun e => if e.1.length == p.length + 1 && isUnder p e.1
              then some (basename e.1) else none)

/-- Stage.get_studies: all studies for the given stream, one per entry of
the stream folder (a fresh directory scan). -/
def Stage.get_studies (self : Stage) (stream : Stream) (fs : FS) : List Study :=
  (fs.childrenNames (self.get_path_for_stream stream)).map
    (fun n => { name := n, stream := stream, stage := self })

/-- Stage.get_all_studies: all studies for all streams of this stage. -/
def Stage.get_all_studies (self : Stage) (fs : FS) : List Study :=
  self.streams.foldl (fun acc s => acc ++ self.get_studies s fs) []

/-- Exception values of the source, one constructor per exception class
raised by the embedded code (core.py, stages.py), plus the raw OSError
family and IndexError for faithfulness of untranslated raises. -/
inductive PyErr where
  | studyPush (msg : String)
  | pushStudyCallback (msg : String)
  | recordNotFound (study_id : String)
  | idisCommunication (msg : String)
  | idisCommunicationMissingJob (study_id : String) (job_id : Nat)
  | unknownServer (server_name : String)
  | osError (e : OSErr)
  | indexError
deriving DecidableEq, Repr

/-- Python class name of an exception value. -/
def PyErr.className : PyErr → String
  | .studyPush _ => "StudyPushException"
  | .pushStudyCallback _ => "PushStudyCallbackException"
  | .recordNotFound _ => "RecordNotFoundException"
  | .idisCommunication _ => "IDISCommunicationException"
  | .idisCommunicationMissingJob _ _ => "IDISCommunicationException"
  | .unknownServer _ => "UnknownServerException"
  | .osError _ => "OSError"
  | .indexError => "IndexError"

/-- Whether the exception is of the IDISSendException family (matched by
the first except clause of Stage.push_study). -/
def PyErr.isIDISSendException : PyErr → Bool
  | .studyPush _ => true
  | .pushStudyCallback _ => true
  | .recordNotFound _ => true
  | .idisCommunication _ => true
  | .idisCommunicationMissingJob _ _ => true
  | .unknownServer _ => true
  | .osError _ => false
  | .indexError => false

/-- Whether the exception is of the OSError family (matched by the second
except clause of Stage.push_study). -/
def PyErr.isOSFamily : PyErr → Bool
  | .osError _ => true
  | _ => false

/-- Outcome of a push: the returned value or raised exception, together
with the filesystem as left behind (exceptions do not undo side effects). -/
structure PushOutcome where
  result : Except PyErr (Option Study)
  fs : FS
deriving Repr

/-- Stage.push_study of core.py, translated line by line. The post-push
hook push_study_callback is a parameter (subclasses override it). The
forward move is shutil.move(source, target stream folder); on a hook
failure of the IDISSendException family the code executes
shutil.move(stream folder, source) as rollback; OSError-family failures
are wrapped without rollback; the success path of the Python function has
no return statement, so it returns None. -/
def Stage.push_study (self : Stage) (callback : Study → Except PyErr Study)
    (study : Study) (fs : FS) : PushOutcome :=
  if study.stream ∈ self.streams then
    let original_stage := study.stage
    let source := original_stage.get_path_for_study study
    let destination := self.get_path_for_stream study.stream
    match shutilMove fs source destination with
    | .error e => { result := .error (.studyPush (osErrText e)), fs := fs }
    | .ok fs1 =>
      match callback study with
      | .ok _ => { result := .ok none, fs := fs1 }
      | .error e =>
        if e.isIDISSendException then
          match shutilMove fs1 destination source with
          | .ok fs2 => { result := .error (.studyPush e.className), fs := fs2 }
          | .error e2 => { result := .error (.osError e2), fs := fs1 }
        else if e.isOSFamily then
          { result := .error (.studyPush e.className), fs := fs1 }
        else
          { result := .error e, fs := fs1 }
  else
    { result := .error (.studyPush ("Stream does not exist in " ++ self.name)),
      fs := fs }

/-- An AgedPath of core.py: a path with the modification time of the file,
kept here as the field mtime (seconds). -/
structure AgedPath where
  path : List String
  mtime : ℚ
deriving DecidableEq, Repr

/-- AgedPath.age: minutes since last modification, relative to the explicit
clock value now (seconds). -/
def AgedPath.age (now : ℚ) (f : AgedPath) : ℚ :=
  (now - f.mtime) / 60

/-- Study.is_older_than of core.py over the list returned by
self.get_files(): iterate the files and return False at the first file
whose age is at most the threshold; an exhausted loop returns True. -/
def Study.is_older_than (now minutes : ℚ) : List AgedPath → Bool
  | [] => true
  | f :: rest =>
    if f.age now ≤ minutes then false else Study.is_older_than now minutes rest

/-- Study.age of core.py over the files of the study: the minimum of the
file ages; Python's min raises ValueError on an empty sequence, modelled
as none. -/
def Study.age (now : ℚ) (files : List AgedPath) : Option ℚ :=
  (files.map (AgedPath.age now)).min?

/-- CoolDown stage of stages.py: a stage with a cool down period in
minutes. -/
structure CoolDown extends Stage where
  cool_down : ℚ
deriving DecidableEq, Repr

/-- CoolDown.has_cooled_down: no file of the study was modified less than
cool_down minutes ago. -/
def CoolDown.has_cooled_down (self : CoolDown) (now : ℚ)
    (files : List AgedPath) : Bool :=
  Study.is_older_than now self.cool_down files

/-- IDIS job status values returned by the anonymization service. -/
inductive JobStatus where
  | DONE
  | ERROR
  | INACTIVE
  | ACTIVE
deriving DecidableEq, Repr

/-- JobInfo returned for one job by the service's bulk status query. -/
structure JobInfo where
  job_id : Nat
  status : JobStatus
  error : Option String
deriving DecidableEq, Repr

/-- Persisted IDISRecord row (orm.py): maps a study id to its external job
and the last known status of that job. -/
structure IDISRecord where
  study_id : String
  job_id : Nat
  server_name : String
  last_status : Option JobStatus
  last_error_message : Option String
  last_check : Option ℚ
deriving DecidableEq, Repr

/-- Session.get_for_study_id of persistence.py: first record with the given
study id, none when absent. -/
def getForStudyId (db : List IDISRecord) (sid : String) : Option IDISRecord :=
  db.find? (fun r => r.study_id == sid)

/-- External anonymization client (AnonClientTool), an opaque collaborator:
create_path_job takes the server name and the study id and yields the new
job id or an AnonAPIException text; reset_job yields a result string (an
Error-prefixed string signals failure); get_job_info_list yields the bulk
status response or a ClientToolException text. -/
structure AnonClientTool where
  create_path_job : String → String → Except String Nat
  reset_job : String → Nat → String
  get_job_info_list : String → List Nat → Except String (List JobInfo)

/-- External call records, used to observe how often the collaborator was
invoked by a hook. -/
inductive IDISCallRec where
  | createJob (server : String) (study_id : String)
  | resetJob (server : String) (job_id : Nat)
deriving DecidableEq, Repr

/-- Result of the pending-stage post-push hook: the record store afterwards
or the raised exception, together with the external calls made. -/
structure HookResult where
  result : Except PyErr (List IDISRecord)
  calls : List IDISCallRec
deriving Repr

/-- PendingAnon.assert_active_idis_job of stages.py: look up the record for
the pushed study; when one exists, reset its job on the first configured
server (an Error-prefixed reset result raises); otherwise create a job on
the first configured server and persist one new record with the returned
job id and that server's name. An empty server list would make servers[0]
raise IndexError. -/
def PendingAnon.assert_active_idis_job (client : AnonClientTool)
    (servers : List String) (db : List IDISRecord) (study_id : String) :
    HookResult :=
  match servers with
  | [] => { result := .error .indexError, calls := [] }
  | server :: _ =>
    match getForStudyId db study_id with
    | some existing_record =>
      let job_id := existing_record.job_id
      let r := client.reset_job server job_id
      if r.startsWith "Error" then
        { result := .error (.pushStudyCallback r),
          calls := [.resetJob server job_id] }
      else
        { result := .ok db, calls := [.resetJob server job_id] }
    | none =>
      match client.create_path_job server study_id with
      | .error e =>
        { result := .error (.pushStudyCallback e),
          calls := [.createJob server study_id] }
      | .ok created_job_id =>
        { result := .ok (db ++ [{ study_id := study_id,
                                  job_id := created_job_id,
                                  server_name := server,
                                  last_status := none,
                                  last_error_message := none,
                                  last_check := none }]),
          calls := [.createJob server study_id] }

/-- PendingAnon.get_records of stages.py: the record of each study in
order, raising RecordNotFoundException at the first study without one. -/
def PendingAnon.get_records (db : List IDISRecord) :
    List String → Except PyErr (List IDISRecord)
  | [] => .ok []
  | sid :: rest =>
    match getForStudyId db sid with
    | none => .error (.recordNotFound sid)
    | some r =>
      match PendingAnon.get_records db rest with
      | .ok rs => .ok (r :: rs)
      | .error e => .error e

/-- PendingAnon.get_all_orphaned_studies of stages.py: the studies on disk
whose study id appears in no record. -/
def PendingAnon.get_all_orphaned_studies (db : List IDISRecord)
    (studies : List String) : List String :=
  studies.filter (fun sid => db.all (fun r => r.study_id != sid))

/-- Add a record to the per-server groups, preserving first-appearance
order of servers, as the defaultdict of update_records does. -/
def addToGroups (gs : List (String × List IDISRecord)) (r : IDISRecord) :
    List (String × List IDISRecord) :=
  if gs.any (fun g => g.1 == r.server_name) then
    gs.map (fun g => if g.1 == r.server_name then (g.1, g.2 ++ [r]) else g)
  else gs ++ [(r.server_name, [r])]

/-- Records grouped under a server name, empty when the server has no
group; the defaultdict access of update_records. -/
def groupGet (gs : List (String × List IDISRecord)) (sv : String) :
    List IDISRecord :=
  ((gs.find? (fun g => g.1 == sv)).map (fun g => g.2)).getD []

/-- Grouping loop of update_records: resolve each record's server via
get_server (raising UnknownServerException for an unknown name, identified
here by the server name) and append the record to that server's group. -/
def groupRecords (servers : List String) :
    List IDISRecord → List (String × List IDISRecord) →
    Except PyErr (List (String × List IDISRecord))
  | [], gs => .ok gs
  | r :: rest, gs =>
    if r.server_name ∈ servers then
      groupRecords servers rest (addToGroups gs r)
    else .error (.unknownServer r.server_name)

/-- Query loop of update_records: one get_job_info_list call per server
group, concatenating the responses; a ClientToolException is wrapped as
IDISCommunicationException. -/
def fetchJobInfos (client : AnonClientTool) :
    List (String × List IDISRecord) → Except PyErr (List JobInfo)
  | [] => .ok []
  | (sv, rs) :: rest =>
    match client.get_job_info_list sv (rs.map (fun r => r.job_id)) with
    | .error e => .error (.idisCommunication e)
    | .ok infos =>
      match fetchJobInfos client rest with
      | .ok more => .ok (infos ++ more)
      | .error e => .error e

/-- Lookup in a Python dict comprehension keyed by job id: for duplicate
keys the later element wins. -/
def dictLast : List JobInfo → Nat → Option JobInfo
  | [], _ => none
  | info :: rest, jid =>
    match dictLast rest jid with
    | some x => some x
    | none => if info.job_id == jid then some info else none

/-- Lookup in the dict comprehension keyed by study id over the resolved
records: for duplicate keys the later record wins. -/
def recordDict : List IDISRecord → String → Option IDISRecord
  | [], _ => none
  | r :: rest, sid =>
    match recordDict rest sid with
    | some x => some x
    | none => if r.study_id == sid then some r else none

/-- The field updates update_records applies to a record from the job info
matched to it, with last_check set to the current time. -/
def updatedRecord (r : IDISRecord) (info : JobInfo) (now : ℚ) : IDISRecord :=
  { r with last_status := some info.status,
           last_error_message := info.error,
           last_check := some now }

/-- Matching loop of update_records: for each study take its record from
the study-id dict and the job info from the job-id dict; a missing job id
raises IDISCommunicationException naming the study and the job id;
otherwise the record is updated and persisted via session.add_record,
modelled by returning the updated record paired with the study. -/
def matchAndUpdate (recs : List IDISRecord) (job_infos : List JobInfo)
    (now : ℚ) : List String → Except PyErr (List (String × IDISRecord))
  | [] => .ok []
  | sid :: rest =>
    match recordDict recs sid with
    | none => .error (.idisCommunication "KeyError")
    | some record =>
      match dictLast job_infos record.job_id with
      | none => .error (.idisCommunicationMissingJob sid record.job_id)
      | some job_info =>
        match matchAndUpdate recs job_infos now rest with
        | .ok pairs => .ok ((sid, updatedRecord record job_info now) :: pairs)
        | .error e => .error e

/-- PendingAnon.update_records of stages.py: resolve the records of the
given studies, group them by server, query each server once for the job
statuses of its group, then match the responses back by job id and update
and persist each record. -/
def PendingAnon.update_records (client : AnonClientTool)
    (servers : List String) (db : List IDISRecord) (studies : List String)
    (now : ℚ) : Except PyErr (List (String × IDISRecord)) :=
  match PendingAnon.get_records db studies with
  | .error e => .error e
  | .ok recs =>
    match groupRecords servers recs [] with
    | .error e => .error e
    | .ok groups =>
      match fetchJobInfos client groups with
      | .error e => .error e
      | .ok job_infos => matchAndUpdate recs job_infos now studies

/-- Trash.delete_all loop of stages.py: shutil.rmtree the folder of each
listed study in order; an OSError propagates. -/
def Trash.delete_all_loop (fs : FS) : List Study → Except PyErr FS
  | [] => .ok fs
  | s :: rest =>
    match shutilRmtree fs s.path with
    | .error e => .error (.osError e)
    | .ok fs2 => Trash.delete_all_loop fs2 rest

/-- Trash.delete_all of stages.py: list all studies of the stage's
registered streams, then delete the data folder of each. -/
def Trash.delete_all (self : Stage) (fs : FS) : Except PyErr FS :=
  Trash.delete_all_loop fs (self.get_all_studies fs)

/-- Pipeline-level state: the study ids held by each stage that the
pipeline routes between, plus the record store. Modelled from the spec:
the stage contents stand for the per-stream directory listings of the
corresponding Stage objects, abstracted to study ids since the routing
code of pipeline.py only inspects ids and records. -/
structure PipeState where
  pending : List String
  finished : List String
  trash : List String
  errored : List String
  db : List IDISRecord
deriving DecidableEq, Repr

/-- Modelled from the spec: Stage.push_studies (the bulk push variant) is
absent from src; per the spec it pushes each study independently in order
and one failure does not prevent attempts on the rest. A push into the
destination fails (and leaves the study at the source) when the
destination already holds that id; a successful push removes the id from
the source listing and appends it to the destination listing. -/
def Stage.push_ids (src dst : List String) (ids : List String) :
    List String × List String :=
  ids.foldl
    (fun acc i => if i ∈ acc.2 then acc else (acc.1.erase i, acc.2 ++ [i]))
    (src, dst)

/-- Modelled from the spec: the newer PendingAnon.get_all_studies (which
returns PendingStudy objects) is absent from src; per the spec resolving
the pending studies looks up each study's record and raises
RecordNotFoundException naming the first study that has none. -/
def PendingAnon.get_all_studies_resolved (st : PipeState) :
    Except PyErr (List String) :=
  match st.pending.find? (fun sid => (getForStudyId st.db sid).isNone) with
  | some sid => .error (.recordNotFound sid)
  | none => .ok st.pending

/-- Result of the pipeline's pending-study resolution step: the returned
study list or raised exception, the pipeline state afterwards, and the
number of resolution attempts made. -/
structure PendingFetch where
  result : Except PyErr (List String)
  state : PipeState
  attempts : Nat
deriving Repr

/-- DefaultPipeline.get_pending_studies of pipeline.py: resolve the pending
studies; on RecordNotFoundException push the orphaned studies (those on
disk with no record) to errored and resolve once more, without guarding
the retry; any other exception propagates without recovery. -/
def DefaultPipeline.get_pending_studies (st : PipeState) : PendingFetch :=
  match PendingAnon.get_all_studies_resolved st with
  | .ok studies => { result := .ok studies, state := st, attempts := 1 }
  | .error (.recordNotFound _) =>
    let orphaned := PendingAnon.get_all_orphaned_studies st.db st.pending
    let pushed := Stage.push_ids st.pending st.errored orphaned
    let st1 := { st with pending := pushed.1, errored := pushed.2 }
    (match PendingAnon.get_all_studies_resolved st1 with
     | .ok studies => { result := .ok studies, state := st1, attempts := 2 }
     | .error e => { result := .error e, state := st1, attempts := 2 })
  | .error e => { result := .error e, state := st, attempts := 1 }

/-- Persist the updated records into the store: each row is replaced by the
updated record of its study, modelling the in-place mutation plus
session.add_record of update_records (the store holds at most one record
per study id). -/
def applyPairs (db : List IDISRecord) (pairs : List (String × IDISRecord)) :
    List IDISRecord :=
  db.map (fun row =>
    match pairs.find? (fun p => p.1 == row.study_id) with
    | some p => p.2
    | none => row)

/-- DefaultPipeline.update_idis_status of pipeline.py: refresh the records
of the given studies via update_records, then push the studies whose
last status is DONE to finished, INACTIVE to trash and ERROR to errored;
studies with any other status (ACTIVE) are not pushed anywhere. -/
def DefaultPipeline.update_idis_status (client : AnonClientTool)
    (servers : List String) (now : ℚ) (studies : List String)
    (st : PipeState) : Except PyErr PipeState :=
  match PendingAnon.update_records client servers st.db studies now with
  | .error e => .error e
  | .ok pairs =>
    let db2 := applyPairs st.db pairs
    let doneIds :=
      (pairs.filter (fun p => p.2.last_status == some .DONE)).map (fun p => p.1)
    let inactiveIds :=
      (pairs.filter (fun p => p.2.last_status == some .INACTIVE)).map
        (fun p => p.1)
    let errorIds :=
      (pairs.filter (fun p => p.2.last_status == some .ERROR)).map
        (fun p => p.1)
    let pushedFin := Stage.push_ids st.pending st.finished doneIds
    let pushedTrash := Stage.push_ids pushedFin.1 st.trash inactiveIds
    let pushedErr := Stage.push_ids pushedTrash.1 st.errored errorIds
    .ok { pending := pushedErr.1, finished := pushedFin.2,
          trash := pushedTrash.2, errored := pushedErr.2, db := db2 }

/-- A stream used by the concrete scenarios below. -/
def streamA : Stream :=
  { name := "streamA", output_folder := ["out"], idis_project := "proj",
    pims_key := "key", contact := { name := "sj", email := "e" } }

/-- A source stage holding incoming data, with streamA registered. -/
def incomingStage : Stage :=
  { name := "incoming", path := ["incoming"], streams := [streamA] }

/-- A target stage with streamA registered. -/
def stage1 : Stage :=
  { name := "stage1", path := ["stage1"], streams := [streamA] }

/-- A study located in the incoming stage. -/
def study1 : Study :=
  { name := "study1", stream := streamA, stage := incomingStage }

/-- Filesystem for the push scenarios: study1 with one file under the
incoming stage, and an empty streamA folder under stage1. -/
def fs0 : FS :=
  ⟨[(["incoming"], .dir), (["incoming", "streamA"], .dir),
    (["incoming", "streamA", "study1"], .dir),
    (["incoming", "streamA", "study1", "file1"], .file),
    (["stage1"], .dir), (["stage1", "streamA"], .dir)]⟩

/-- A post-push hook that raises PushStudyCallbackException. -/
def failingCallback : Study → Except PyErr Study :=
  fun _ => .error (.pushStudyCallback "hook failed")

/-- The default post-push hook of the Stage base class: returns the study
unchanged. -/
def okCallback : Study → Except PyErr Study := fun s => .ok s

/-- Outcome of pushing study1 to stage1 when the target's hook raises. -/
def rollbackOutcome : PushOutcome :=
  stage1.push_study failingCallback study1 fs0

/-- Outcome of pushing study1 to stage1 when the hook succeeds. -/
def successOutcome : PushOutcome :=
  stage1.push_study okCallback study1 fs0

/-- The same study viewed as located in stage1, for the self-push
scenario. -/
def study1AtStage1 : Study :=
  { name := "study1", stream := streamA, stage := stage1 }

/-- Filesystem in which study1 already lives under stage1, so that pushing
it to stage1 again collides with itself. -/
def fsSelf : FS :=
  ⟨[(["stage1"], .dir), (["stage1", "streamA"], .dir),
    (["stage1", "streamA", "study1"], .dir),
    (["stage1", "streamA", "study1", "file1"], .file)]⟩

/-- Outcome of pushing study1 to the stage it is already in, same stream
and id. -/
def selfPushOutcome : PushOutcome :=
  stage1.push_study okCallback study1AtStage1 fsSelf

/-- A cool-down stage over streamA with a five minute cool down. -/
def incomingCoolDown : CoolDown :=
  { name := "incoming", path := ["incoming"], streams := [streamA],
    cool_down := 5 }

/-- A mocked external client: creating a job yields id 42, resetting
succeeds with a non-error message, and the bulk status query returns an
empty list. -/
def client0 : AnonClientTool :=
  { create_path_job := fun _ _ => .ok 42,
    reset_job := fun _ jid => "reset " ++ toString jid,
    get_job_info_list := fun _ _ => .ok [] }

/-- An existing record mapping study s1 to job 7 created on server srvA. -/
def record0 : IDISRecord :=
  { study_id := "s1", job_id := 7, server_name := "srvA",
    last_status := none, last_error_message := none, last_check := none }

/-- A record store holding only record0. -/
def db0 : List IDISRecord := [record0]

/-- A response function for the bulk status query: every asked job is
reported as DONE with no error message. -/
def resp8 : String → List Nat → List JobInfo :=
  fun _ ids => ids.map
    (fun j => { job_id := j, status := JobStatus.DONE, error := none })

/-- A mocked external client whose bulk status query answers with resp8. -/
def client8 : AnonClientTool :=
  { create_path_job := fun _ _ => .ok 42,
    reset_job := fun _ jid => "reset " ++ toString jid,
    get_job_info_list := fun sv ids => .ok (resp8 sv ids) }

/-- A pipeline state for the orphan-recovery scenario: two studies pend,
s1 has a record (record0) and s2 has none. -/
def pipeSt6 : PipeState :=
  { pending := ["s1", "s2"], finished := [], trash := [], errored := [],
    db := db0 }

/-- Four records, studies s1..s4 mapped to jobs 1..4 on server srvA. -/
def db7 : List IDISRecord :=
  [{ study_id := "s1", job_id := 1, server_name := "srvA",
     last_status := none, last_error_message := none, last_check := none },
   { study_id := "s2", job_id := 2, server_name := "srvA",
     last_status := none, last_error_message := none, last_check := none },
   { study_id := "s3", job_id := 3, server_name := "srvA",
     last_status := none, last_error_message := none, last_check := none },
   { study_id := "s4", job_id := 4, server_name := "srvA",
     last_status := none, last_error_message := none, last_check := none }]

/-- Job statuses reported by the mocked service: job 1 is DONE, job 2
INACTIVE, job 3 ERROR and every other job ACTIVE. -/
def statusOf7 : Nat → JobStatus :=
  fun j =>
    if j = 1 then .DONE
    else if j = 2 then .INACTIVE
    else if j = 3 then .ERROR
    else .ACTIVE

/-- A mocked client reporting statusOf7 for every asked job. -/
def client7 : AnonClientTool :=
  { create_path_job := fun _ _ => .ok 42,
    reset_job := fun _ jid => "reset " ++ toString jid,
    get_job_info_list := fun _ ids => .ok (ids.map (fun j =>
      { job_id := j, status := statusOf7 j, error := none })) }

/-- A pipeline state with four pending studies and the records of db7. -/
def st7 : PipeState :=
  { pending := ["s1", "s2", "s3", "s4"], finished := [], trash := [],
    errored := [], db := db7 }

/-- A trash stage with streamA registered. -/
def trashStage : Stage :=
  { name := "trash", path := ["trash"], streams := [streamA] }

/-- Filesystem for the trash scenario: two study directories under the
trash stage's streamA folder (one holding a file), plus a folder of an
unregistered stream with its own study directory. -/
def fsTrash : FS :=
  ⟨[(["trash"], .dir), (["trash", "streamA"], .dir),
    (["trash", "streamA", "study1"], .dir),
    (["trash", "streamA", "study1", "file1"], .file),
    (["trash", "streamA", "study2"], .dir),
    (["trash", "other"], .dir),
    (["trash", "other", "study3"], .dir)]⟩

end Idissend

namespace Idissend

theorem basename_append_single (l : List String) (a : String) :
    basename (l ++ [a]) = a := by
  induction l with
  | nil => rfl
  | cons x xs ih =>
    cases xs with
    | nil => rfl
    | cons y ys => simpa [basename] using ih

theorem isUnder_length {p q : List String} (h : isUnder p q = true) :
    p.length ≤ q.length := by
  induction p generalizing q with
  | nil => exact Nat.zero_le _
  | cons a as ih =>
    cases q with
    | nil => simp [isUnder] at h
    | cons b bs =>
      simp only [isUnder, Bool.and_eq_true] at h
      simpa using ih h.2

theorem isUnder_append_single_self (d : List String) (a : String) :
    isUnder (d ++ [a]) d = false := by
  by_contra h
  have h2 : isUnder (d ++ [a]) d = true := by
    cases h3 : isUnder (d ++ [a]) d
    · exact absurd h3 h
    · rfl
  have := isUnder_length h2
  simp at this

/-- Claim C1 (code_bug evidence): pushing a study to an accepting stage
whose hook raises does report a push failure, and the listing of the
source stage again contains the study's id while the target's listing does
not, but the rollback does not put the data back at its original path:
the code moves the whole target stream directory onto the original study
path, so the study's file ends up nested one level deeper, at
original path/study1/file1 relocated to original path/study1/study1/file1,
and nothing is left at the original file path. -/
theorem push_study_hook_failure_rollback_nests_data :
    rollbackOutcome.result = .error (.studyPush "PushStudyCallbackException")
    ∧ rollbackOutcome.fs.pathExists
        ["incoming", "streamA", "study1", "file1"] = false
    ∧ rollbackOutcome.fs.lookup
        ["incoming", "streamA", "study1", "study1", "file1"] = some .file
    ∧ (incomingStage.get_all_studies rollbackOutcome.fs).map Study.name
        = ["study1"]
    ∧ stage1.get_all_studies rollbackOutcome.fs = [] :=
  ⟨rfl, by decide, by decide, by decide, by decide⟩

/-- Claim C3 (code_bug evidence): a successful push of study1 to stage1
moves the data to the destination, but the call returns None (the Python
function body has no return statement on the success path), not the Study
at the destination as the contract states. -/
theorem push_study_success_returns_none :
    successOutcome.result = .ok none
    ∧ successOutcome.fs.lookup ["stage1", "streamA", "study1"] = some .dir
    ∧ successOutcome.fs.lookup
        ["stage1", "streamA", "study1", "file1"] = some .file
    ∧ successOutcome.fs.pathExists ["incoming", "streamA", "study1"] = false :=
  ⟨rfl, by decide, by decide, by decide⟩

/-- Claim C2 (counterexample): pushing a study onto an existing destination
(here, onto itself: same stage, same stream, same id) raises
StudyPushException, not an exception named AlreadyExists or SelfPush — no
such exception classes exist in the code — while the destination data is
untouched. -/
theorem push_study_collision_error_is_study_push :
    selfPushOutcome.result
      = .error (.studyPush "Destination path already exists")
    ∧ (∀ e, selfPushOutcome.result = .error e →
        e.className = "StudyPushException"
        ∧ e.className ≠ "AlreadyExists" ∧ e.className ≠ "SelfPush")
    ∧ selfPushOutcome.fs = fsSelf := by
  refine ⟨rfl, ?_, by decide⟩
  intro e he
  have h0 : selfPushOutcome.result
      = .error (.studyPush "Destination path already exists") := rfl
  rw [h0] at he
  cases he
  exact ⟨rfl, by decide, by decide⟩

/-- Claim C2 (amended): whenever the destination stage accepts the study's
stream but the destination path already exists (including the self-push
case, where the destination is the source itself), push_study raises an
exception of class StudyPushException and leaves the filesystem — in
particular the data already present at the destination — unchanged. -/
theorem push_study_collision_raises_and_preserves
    (self : Stage) (cb : Study → Except PyErr Study) (study : Study)
    (fs : FS) (hstream : study.stream ∈ self.streams)
    (hdir : fs.isDir (self.get_path_for_stream study.stream) = true)
    (hexists : fs.pathExists
      (self.get_path_for_stream study.stream ++ [study.name]) = true) :
    (self.push_study cb study fs).fs = fs
    ∧ ∃ e, (self.push_study cb study fs).result = .error e
        ∧ e.className = "StudyPushException" := by
  have hmove : ∃ e2, shutilMove fs (study.stage.get_path_for_study study)
      (self.get_path_for_stream study.stream) = .error e2 := by
    unfold shutilMove
    rw [hdir]
    simp only [if_true]
    by_cases hu : isUnder (study.stage.get_path_for_study study)
        (self.get_path_for_stream study.stream) = true
    · rw [hu]
      exact ⟨.moveIntoItself, rfl⟩
    · rw [Bool.not_eq_true] at hu
      rw [hu]
      have hb : basename (study.stage.get_path_for_study study) = study.name := by
        unfold Stage.get_path_for_study
        exact basename_append_single _ _
      simp only [Bool.false_eq_true, if_false, hb, hexists, if_true]
      exact ⟨_, rfl⟩
  obtain ⟨e2, he2⟩ := hmove
  unfold Stage.push_study
  rw [if_pos hstream]
  simp only [he2]
  exact ⟨trivial, .studyPush (osErrText e2), rfl, rfl⟩

/-- Witness for the amended claim C2, at the concrete self-push input. -/
theorem push_study_collision_raises_and_preserves_witness :
    (stage1.push_study okCallback study1AtStage1 fsSelf).fs = fsSelf
    ∧ ∃ e, (stage1.push_study okCallback study1AtStage1 fsSelf).result
        = .error e ∧ e.className = "StudyPushException" :=
  push_study_collision_raises_and_preserves stage1 okCallback study1AtStage1
    fsSelf (by decide) (by decide) (by decide)

/-- Claim C4 (counterexample): for a study with zero files the settling
check does report the study as settled — is_older_than and
has_cooled_down vacuously return true — and the study's age is undefined
(Python's min raises ValueError on the empty sequence, modelled as none),
contradicting the claim that a zero-file study is never reported settled. -/
theorem zero_file_study_is_reported_settled :
    Study.is_older_than 0 5 [] = true
    ∧ CoolDown.has_cooled_down incomingCoolDown 0 [] = true
    ∧ Study.age 0 [] = none :=
  ⟨rfl, rfl, rfl⟩

/-- Claim C4 (amended): for every study whose directory contains zero
files, the settling check vacuously reports the study as settled for every
threshold (is_older_than and has_cooled_down return true), and asking for
the study's age does not return a value — Python's min raises ValueError,
modelled as none — so callers must special-case zero-file studies
themselves. -/
theorem zero_file_study_settled_and_age_undefined (now minutes : ℚ)
    (cd : CoolDown) :
    Study.is_older_than now minutes [] = true
    ∧ CoolDown.has_cooled_down cd now [] = true
    ∧ Study.age now [] = none :=
  ⟨rfl, rfl, rfl⟩

/-- Claim C9: settling is monotone — for fixed files and clock, if every
file of the study is older than d1 minutes then for every smaller
threshold d2 every file is also older than d2 minutes. -/
theorem is_older_than_monotone (files : List AgedPath) (now d1 d2 : ℚ)
    (hlt : d2 < d1) (h : Study.is_older_than now d1 files = true) :
    Study.is_older_than now d2 files = true := by
  induction files with
  | nil => rfl
  | cons f rest ih =>
    unfold Study.is_older_than at h ⊢
    by_cases hle : f.age now ≤ d1
    · rw [if_pos hle] at h
      exact absurd h (by simp)
    · rw [if_neg hle] at h
      have hne : ¬ f.age now ≤ d2 := by
        intro hle2
        exact hle (le_trans hle2 (le_of_lt hlt))
      rw [if_neg hne]
      exact ih h

/-- Witness for claim C9 at a concrete study: one file last modified at
time 0, clock at 600 seconds, so the file is 10 minutes old; it is older
than 5 minutes, hence also older than 3 minutes. -/
theorem is_older_than_monotone_witness :
    Study.is_older_than 600 3 [{ path := ["f"], mtime := 0 }] = true :=
  is_older_than_monotone [{ path := ["f"], mtime := 0 }] 600 5 3
    (by norm_num) (by norm_num [Study.is_older_than, AgedPath.age])

theorem getForStudyId_study_id {db : List IDISRecord} {sid : String}
    {r : IDISRecord} (h : getForStudyId db sid = some r) : r.study_id = sid := by
  unfold getForStudyId at h
  have h2 := List.find?_some h
  simp only [beq_iff_eq] at h2
  exact h2

theorem get_records_isSome {db : List IDISRecord} :
    ∀ {studies : List String} {recs : List IDISRecord},
    PendingAnon.get_records db studies = .ok recs →
    ∀ sid ∈ studies, (getForStudyId db sid).isSome = true := by
  intro studies
  induction studies with
  | nil => intro recs _ sid hmem; cases hmem
  | cons s ss ih =>
    intro recs h sid hmem
    cases hf : getForStudyId db s with
    | none => rw [PendingAnon.get_records, hf] at h; cases h
    | some r =>
      rw [PendingAnon.get_records, hf] at h
      cases hrest : PendingAnon.get_records db ss with
      | error e => rw [hrest] at h; cases h
      | ok rs =>
        cases hmem with
        | head => rw [hf]; rfl
        | tail _ hmem2 => exact ih hrest sid hmem2

theorem get_records_study_id_mem {db : List IDISRecord} :
    ∀ {studies : List String} {recs : List IDISRecord},
    PendingAnon.get_records db studies = .ok recs →
    ∀ r ∈ recs, r.study_id ∈ studies := by
  intro studies
  induction studies with
  | nil =>
    intro recs h r hmem
    rw [PendingAnon.get_records] at h
    cases h
    cases hmem
  | cons s ss ih =>
    intro recs h r hmem
    cases hf : getForStudyId db s with
    | none => rw [PendingAnon.get_records, hf] at h; cases h
    | some r0 =>
      rw [PendingAnon.get_records, hf] at h
      cases hrest : PendingAnon.get_records db ss with
      | error e => rw [hrest] at h; cases h
      | ok rs =>
        rw [hrest] at h
        cases h
        cases hmem with
        | head => exact (getForStudyId_study_id hf) ▸ List.mem_cons_self _ _
        | tail _ hmem2 => exact List.mem_cons_of_mem _ (ih hrest r hmem2)

theorem recordDict_eq_none {recs : List IDISRecord} {sid : String}
    (h : ∀ r ∈ recs, r.study_id ≠ sid) : recordDict recs sid = none := by
  induction recs with
  | nil => rfl
  | cons r rest ih =>
    rw [recordDict, ih (fun x hx => h x (List.mem_cons_of_mem _ hx))]
    have : (r.study_id == sid) = false :=
      beq_eq_false_iff_ne.mpr (h r (List.mem_cons_self _ _))
    rw [this]
    simp

theorem recordDict_of_get_records {db : List IDISRecord} :
    ∀ {studies : List String} {recs : List IDISRecord},
    PendingAnon.get_records db studies = .ok recs →
    ∀ sid ∈ studies, recordDict recs sid = getForStudyId db sid := by
  intro studies
  induction studies with
  | nil => intro recs _ sid hmem; cases hmem
  | cons s ss ih =>
    intro recs h sid hmem
    cases hf : getForStudyId db s with
    | none => rw [PendingAnon.get_records, hf] at h; cases h
    | some r0 =>
      rw [PendingAnon.get_records, hf] at h
      cases hrest : PendingAnon.get_records db ss with
      | error e => rw [hrest] at h; cases h
      | ok rs =>
        rw [hrest] at h
        cases h
        by_cases hss : sid ∈ ss
        · rw [recordDict, ih hrest sid hss]
          cases hf2 : getForStudyId db sid with
          | none =>
            have := get_records_isSome hrest sid hss
            rw [hf2] at this
            cases this
          | some r2 => rfl
        · have hs : sid = s := by
            cases hmem with
            | head => rfl
            | tail _ h2 => exact absurd h2 hss
          subst hs
          rw [recordDict]
          have hnone : recordDict rs sid = none := by
            refine recordDict_eq_none (fun x hx => ?_)
            intro hxe
            exact hss (hxe ▸ get_records_study_id_mem hrest x hx)
          rw [hnone]
          have hbeq : (r0.study_id == sid) = true :=
            beq_iff_eq.mpr (getForStudyId_study_id hf)
          rw [hbeq, hf]
          simp

theorem dictLast_append (l1 l2 : List JobInfo) (jid : Nat) :
    dictLast (l1 ++ l2) jid
      = match dictLast l2 jid with
        | some x => some x
        | none => dictLast l1 jid := by
  induction l1 with
  | nil =>
    cases h : dictLast l2 jid with
    | none => simp [h, dictLast]
    | some x => simp [h]
  | cons i rest ih =>
    rw [List.cons_append, dictLast, ih]
    cases h : dictLast l2 jid with
    | none => cases h2 : dictLast rest jid <;> simp [dictLast, h2]
    | some x => simp [dictLast]

theorem dictLast_none_iff_all (l : List JobInfo) (jid : Nat) :
    dictLast l jid = none ↔ l.all (fun i => i.job_id != jid) = true := by
  induction l with
  | nil => simp [dictLast]
  | cons i rest ih =>
    rw [dictLast]
    cases h : dictLast rest jid with
    | some x =>
      simp only [List.all_cons, Bool.and_eq_true]
      constructor
      · intro h2; cases h2
      · intro h2
        rw [ih.mpr h2.2] at h
        cases h
    | none =>
      simp only [List.all_cons, Bool.and_eq_true]
      constructor
      · intro h2
        by_cases hb : (i.job_id == jid) = true
        · rw [hb] at h2; simp at h2
        · exact ⟨by simpa [bne] using hb, ih.mp h⟩
      · intro h2
        have hb : (i.job_id == jid) = false := by
          simpa [bne] using h2.1
        rw [hb]
        simp

theorem dictLast_some_mem {l : List JobInfo} {jid : Nat} {info : JobInfo}
    (h : dictLast l jid = some info) : info ∈ l ∧ info.job_id = jid := by
  induction l with
  | nil => cases h
  | cons i rest ih =>
    rw [dictLast] at h
    cases h2 : dictLast rest jid with
    | some x =>
      rw [h2] at h
      cases h
      have := ih h2
      exact ⟨List.mem_cons_of_mem _ this.1, this.2⟩
    | none =>
      rw [h2] at h
      by_cases hb : (i.job_id == jid) = true
      · rw [hb] at h
        simp at h
        cases h
        exact ⟨List.mem_cons_self _ _, eq_of_beq hb⟩
      · rw [Bool.not_eq_true] at hb
        rw [hb] at h
        simp at h

theorem all_flatten_of_all {blocks : List (List JobInfo)}
    {p : JobInfo → Bool} (h : ∀ b ∈ blocks, b.all p = true) :
    blocks.flatten.all p = true := by
  rw [List.all_eq_true]
  intro info hmem
  obtain ⟨b, hb, hib⟩ := List.mem_flatten.mp hmem
  exact List.all_eq_true.mp (h b hb) info hib

theorem dictLast_flatten_of_blocks {jid : Nat} :
    ∀ (blocks : List (List JobInfo)) (target : List JobInfo),
    (∀ b ∈ blocks, b = target ∨ b.all (fun i => i.job_id != jid) = true) →
    target ∈ blocks →
    dictLast blocks.flatten jid = dictLast target jid := by
  intro blocks
  induction blocks with
  | nil => intro target _ hmem; cases hmem
  | cons b rest ih =>
    intro target hall hmem
    rw [List.flatten_cons, dictLast_append]
    by_cases hr : target ∈ rest
    · rw [ih target (fun x hx => hall x (List.mem_cons_of_mem _ hx)) hr]
      cases ht : dictLast target jid with
      | some x => simp
      | none =>
        simp only []
        rcases hall b (List.mem_cons_self _ _) with hb | hb
        · rw [hb, ht]
        · exact (dictLast_none_iff_all b jid).mpr hb
    · have hb : b = target := by
        cases hmem with
        | head => rfl
        | tail _ h2 => exact absurd h2 hr
      have hrest : dictLast rest.flatten jid = none := by
        refine (dictLast_none_iff_all _ _).mpr (all_flatten_of_all ?_)
        intro b2 hb2
        rcases hall b2 (List.mem_cons_of_mem _ hb2) with h2 | h2
        · exact absurd (h2 ▸ hb2) hr
        · exact h2
      rw [hrest, hb]

theorem recordDict_some_mem {recs : List IDISRecord} {sid : String}
    {r : IDISRecord} (h : recordDict recs sid = some r) : r ∈ recs := by
  induction recs with
  | nil => cases h
  | cons r0 rest ih =>
    rw [recordDict] at h
    cases h2 : recordDict rest sid with
    | some x =>
      rw [h2] at h
      cases h
      exact List.mem_cons_of_mem _ (ih h2)
    | none =>
      rw [h2] at h
      by_cases hb : (r0.study_id == sid) = true
      · rw [hb] at h
        simp at h
        cases h
        exact List.mem_cons_self _ _
      · rw [Bool.not_eq_true] at hb
        rw [hb] at h
        simp at h

theorem find?_key_eq {gs : List (String × List IDISRecord)} {sv : String}
    {g : String × List IDISRecord}
    (h : gs.find? (fun g => g.1 == sv) = some g) : g.1 = sv := by
  have h2 := List.find?_some h
  simp only [beq_iff_eq] at h2
  exact h2

theorem addToGroups_comp_key (r : IDISRecord) (sv : String) :
    ((fun g : String × List IDISRecord => g.1 == sv) ∘
      (fun g : String × List IDISRecord =>
        if g.1 == r.server_name then (g.1, g.2 ++ [r]) else g))
    = (fun g : String × List IDISRecord => g.1 == sv) := by
  funext g
  by_cases hg : (g.1 == r.server_name) = true
  · have hg2 : g.1 = r.server_name := eq_of_beq hg
    simp [hg, hg2]
  · rw [Bool.not_eq_true] at hg
    have hg2 : g.1 ≠ r.server_name := by
      intro he
      rw [he] at hg
      simp at hg
    simp [hg, hg2]

theorem find?_none_of_not_any {gs : List (String × List IDISRecord)}
    {sv : String} (hp : gs.any (fun g => g.1 == sv) = false) :
    gs.find? (fun g => g.1 == sv) = none := by
  rw [List.find?_eq_none]
  intro g hg hb
  have : gs.any (fun g => g.1 == sv) = true :=
    List.any_eq_true.mpr ⟨g, hg, hb⟩
  rw [this] at hp
  cases hp

theorem groupGet_addToGroups_same (gs : List (String × List IDISRecord))
    (r : IDISRecord) :
    groupGet (addToGroups gs r) r.server_name
      = groupGet gs r.server_name ++ [r] := by
  by_cases hp : gs.any (fun g => g.1 == r.server_name) = true
  · have haddeq : addToGroups gs r
        = gs.map (fun g =>
            if g.1 == r.server_name then (g.1, g.2 ++ [r]) else g) := by
      unfold addToGroups
      rw [if_pos hp]
    rw [haddeq]
    unfold groupGet
    rw [List.find?_map, addToGroups_comp_key]
    have hsome : (gs.find? (fun g => g.1 == r.server_name)).isSome :=
      List.find?_isSome.mpr (List.any_eq_true.mp hp)
    cases hf : gs.find? (fun g => g.1 == r.server_name) with
    | none => rw [hf] at hsome; cases hsome
    | some g0 =>
      have hg0 : g0.1 = r.server_name := find?_key_eq hf
      simp [hg0]
  · rw [Bool.not_eq_true] at hp
    have haddeq : addToGroups gs r = gs ++ [(r.server_name, [r])] := by
      unfold addToGroups
      simp only [hp, Bool.false_eq_true, if_false]
    rw [haddeq]
    unfold groupGet
    rw [List.find?_append, find?_none_of_not_any hp]
    simp [List.find?]

theorem groupGet_addToGroups_other (gs : List (String × List IDISRecord))
    (r : IDISRecord) (sv : String) (hsv : sv ≠ r.server_name) :
    groupGet (addToGroups gs r) sv = groupGet gs sv := by
  by_cases hp : gs.any (fun g => g.1 == r.server_name) = true
  · have haddeq : addToGroups gs r
        = gs.map (fun g =>
            if g.1 == r.server_name then (g.1, g.2 ++ [r]) else g) := by
      unfold addToGroups
      rw [if_pos hp]
    rw [haddeq]
    unfold groupGet
    rw [List.find?_map, addToGroups_comp_key]
    cases hf : gs.find? (fun g => g.1 == sv) with
    | none => simp
    | some g0 =>
      have hg0 : g0.1 = sv := find?_key_eq hf
      have hg0r : g0.1 ≠ r.server_name := by
        rw [hg0]
        exact hsv
      simp [hg0r]
  · rw [Bool.not_eq_true] at hp
    have haddeq : addToGroups gs r = gs ++ [(r.server_name, [r])] := by
      unfold addToGroups
      simp only [hp, Bool.false_eq_true, if_false]
    rw [haddeq]
    unfold groupGet
    rw [List.find?_append]
    have hlast : [((r.server_name, [r]) : String × List IDISRecord)].find?
        (fun g => g.1 == sv) = none := by
      rw [List.find?_eq_none]
      intro g hg hb
      simp at hg
      subst hg
      exact hsv (eq_of_beq hb).symm
    rw [hlast]
    cases hf : gs.find? (fun g => g.1 == sv) <;> simp

theorem addToGroups_keys_nodup (gs : List (String × List IDISRecord))
    (r : IDISRecord)
    (h : (gs.map (fun g => g.1)).Nodup) :
    ((addToGroups gs r).map (fun g => g.1)).Nodup := by
  by_cases hp : gs.any (fun g => g.1 == r.server_name) = true
  · have haddeq : addToGroups gs r
        = gs.map (fun g =>
            if g.1 == r.server_name then (g.1, g.2 ++ [r]) else g) := by
      unfold addToGroups
      rw [if_pos hp]
    rw [haddeq, List.map_map]
    have hcomp : ((fun g : String × List IDISRecord => g.1) ∘
        (fun g : String × List IDISRecord =>
          if g.1 == r.server_name then (g.1, g.2 ++ [r]) else g))
        = (fun g : String × List IDISRecord => g.1) := by
      funext g
      by_cases hg : (g.1 == r.server_name) = true
      · have hg2 : g.1 = r.server_name := eq_of_beq hg
        simp [hg, hg2]
      · rw [Bool.not_eq_true] at hg
        have hg2 : g.1 ≠ r.server_name := by
          intro he
          rw [he] at hg
          simp at hg
        simp [hg, hg2]
    rw [hcomp]
    exact h
  · rw [Bool.not_eq_true] at hp
    have haddeq : addToGroups gs r = gs ++ [(r.server_name, [r])] := by
      unfold addToGroups
      simp only [hp, Bool.false_eq_true, if_false]
    rw [haddeq, List.map_append]
    rw [List.nodup_append]
    refine ⟨h, List.nodup_singleton _, ?_⟩
    intro x hx hx2
    simp at hx2
    subst hx2
    obtain ⟨g, hg, hgx⟩ := List.mem_map.mp hx
    have : gs.any (fun g => g.1 == r.server_name) = true :=
      List.any_eq_true.mpr ⟨g, hg, beq_iff_eq.mpr hgx⟩
    rw [this] at hp
    cases hp

theorem groupGet_self {gs : List (String × List IDISRecord)}
    (h : (gs.map (fun g => g.1)).Nodup) {g : String × List IDISRecord}
    (hg : g ∈ gs) : groupGet gs g.1 = g.2 := by
  induction gs with
  | nil => cases hg
  | cons g0 rest ih =>
    rw [List.map_cons, List.nodup_cons] at h
    cases hg with
    | head =>
      unfold groupGet
      have hfind : List.find? (fun g2 => g2.1 == g.1) (g :: rest) = some g :=
        List.find?_cons_of_pos _ (by simp)
      rw [hfind]
      rfl
    | tail _ hmem =>
      have hne : ¬ ((fun g2 : String × List IDISRecord => g2.1 == g.1) g0
          = true) := by
        intro hb
        exact h.1 ((eq_of_beq hb) ▸ List.mem_map_of_mem _ hmem)
      unfold groupGet
      have hfind : List.find? (fun g2 => g2.1 == g.1) (g0 :: rest)
          = List.find? (fun g2 => g2.1 == g.1) rest :=
        List.find?_cons_of_neg _ hne
      rw [hfind]
      exact ih h.2 hmem

theorem groupRecords_ok (servers : List String) :
    ∀ (rs : List IDISRecord) (gs : List (String × List IDISRecord)),
    (∀ r ∈ rs, r.server_name ∈ servers) →
    (gs.map (fun g => g.1)).Nodup →
    ∃ gs', groupRecords servers rs gs = .ok gs'
      ∧ (gs'.map (fun g => g.1)).Nodup
      ∧ ∀ sv, groupGet gs' sv
          = groupGet gs sv ++ rs.filter (fun r => r.server_name == sv) := by
  intro rs
  induction rs with
  | nil =>
    intro gs _ hk
    exact ⟨gs, rfl, hk, fun sv => by simp⟩
  | cons r rest ih =>
    intro gs hs hk
    have hr : r.server_name ∈ servers := hs r (List.mem_cons_self _ _)
    obtain ⟨gs', h1, h2, h3⟩ := ih (addToGroups gs r)
      (fun x hx => hs x (List.mem_cons_of_mem _ hx))
      (addToGroups_keys_nodup gs r hk)
    refine ⟨gs', ?_, h2, ?_⟩
    · rw [groupRecords, if_pos hr]
      exact h1
    · intro sv
      rw [h3 sv, List.filter_cons]
      by_cases hsv : sv = r.server_name
      · subst hsv
        rw [groupGet_addToGroups_same]
        have hb : (r.server_name == r.server_name) = true := by simp
        rw [hb]
        simp [List.append_assoc]
      · rw [groupGet_addToGroups_other gs r sv hsv]
        have hb : (r.server_name == sv) = false :=
          beq_eq_false_iff_ne.mpr (fun he => hsv he.symm)
        rw [hb]
        simp

theorem fetchJobInfos_ok (client : AnonClientTool)
    (resp : String → List Nat → List JobInfo)
    (hclient : ∀ sv ids, client.get_job_info_list sv ids = .ok (resp sv ids)) :
    ∀ gs, fetchJobInfos client gs
      = .ok ((gs.map (fun g => resp g.1 (g.2.map (fun x => x.job_id)))).flatten) := by
  intro gs
  induction gs with
  | nil => rfl
  | cons g rest ih =>
    cases g with
    | mk sv rs =>
      rw [fetchJobInfos, hclient, ih]
      simp [List.flatten_cons]

theorem dictLast_flatten_groups
    (resp : String → List Nat → List JobInfo) (recs : List IDISRecord)
    (hsub : ∀ sv ids, ∀ info ∈ resp sv ids, info.job_id ∈ ids)
    (hjobs : (recs.map (fun x => x.job_id)).Nodup)
    {r : IDISRecord} (hr : r ∈ recs)
    (groups : List (String × List IDISRecord))
    (hk : (groups.map (fun g => g.1)).Nodup)
    (huniv : ∀ sv, groupGet groups sv
      = recs.filter (fun x => x.server_name == sv)) :
    dictLast ((groups.map
        (fun g => resp g.1 (g.2.map (fun x => x.job_id)))).flatten) r.job_id
      = dictLast (resp r.server_name ((recs.filter
          (fun x => x.server_name == r.server_name)).map
          (fun x => x.job_id))) r.job_id := by
  apply dictLast_flatten_of_blocks
  · intro b hb
    obtain ⟨g, hg, hbg⟩ := List.mem_map.mp hb
    have hg2 : g.2 = recs.filter (fun x => x.server_name == g.1) := by
      rw [← huniv g.1, groupGet_self hk hg]
    by_cases hsv : g.1 = r.server_name
    · left
      rw [← hbg, hg2, hsv]
    · right
      rw [List.all_eq_true]
      intro info hinfo
      rw [← hbg] at hinfo
      have hid : info.job_id ∈ g.2.map (fun x => x.job_id) :=
        hsub _ _ info hinfo
      obtain ⟨r2, hr2, hr2id⟩ := List.mem_map.mp hid
      rw [hg2] at hr2
      have hr2f := List.mem_filter.mp hr2
      rw [bne_iff_ne]
      intro he
      have hjr : r2.job_id = r.job_id := by rw [hr2id, he]
      have : r2 = r := List.inj_on_of_nodup_map hjobs hr2f.1 hr hjr
      subst this
      exact hsv (eq_of_beq hr2f.2).symm
  · have hrf : r ∈ recs.filter (fun x => x.server_name == r.server_name) :=
      List.mem_filter.mpr ⟨hr, by simp⟩
    have hne : groupGet groups r.server_name ≠ [] := by
      rw [huniv]
      intro h0
      rw [h0] at hrf
      cases hrf
    cases hf : groups.find? (fun g => g.1 == r.server_name) with
    | none =>
      exfalso
      apply hne
      unfold groupGet
      rw [hf]
      rfl
    | some g1 =>
      have hg1mem := List.mem_of_find?_eq_some hf
      have hg1key : g1.1 = r.server_name := find?_key_eq hf
      have hg1val : g1.2 = recs.filter
          (fun x => x.server_name == r.server_name) := by
        have h2 := huniv r.server_name
        unfold groupGet at h2
        rw [hf] at h2
        exact h2
      refine List.mem_map.mpr ⟨g1, hg1mem, ?_⟩
      rw [hg1key, hg1val]

theorem matchAndUpdate_cases (db : List IDISRecord) (recs : List IDISRecord)
    (job_infos : List JobInfo) (now : ℚ) :
    ∀ (studies : List String),
    (∀ sid ∈ studies, recordDict recs sid = getForStudyId db sid) →
    (∀ sid ∈ studies, (getForStudyId db sid).isSome = true) →
    (∃ sid ∈ studies, ∃ r, getForStudyId db sid = some r
        ∧ dictLast job_infos r.job_id = none
        ∧ ∃ jid, matchAndUpdate recs job_infos now studies
            = .error (.idisCommunicationMissingJob sid jid))
    ∨ ((∀ sid ∈ studies, ∃ r info, getForStudyId db sid = some r
          ∧ dictLast job_infos r.job_id = some info)
       ∧ ∃ pairs, matchAndUpdate recs job_infos now studies = .ok pairs
          ∧ pairs.map (fun p => p.1) = studies
          ∧ ∀ p ∈ pairs, ∃ r info, getForStudyId db p.1 = some r
              ∧ dictLast job_infos r.job_id = some info
              ∧ p.2 = updatedRecord r info now) := by
  intro studies
  induction studies with
  | nil =>
    intro _ _
    right
    refine ⟨fun sid h => absurd h (List.not_mem_nil sid), [], rfl, rfl, ?_⟩
    intro p h
    exact absurd h (List.not_mem_nil p)
  | cons sid rest ih =>
    intro hdict hsome
    have hs := hsome sid (List.mem_cons_self _ _)
    cases hf : getForStudyId db sid with
    | none =>
      rw [hf] at hs
      cases hs
    | some r =>
      have hrd : recordDict recs sid = some r := by
        rw [hdict sid (List.mem_cons_self _ _), hf]
      cases hd : dictLast job_infos r.job_id with
      | none =>
        left
        refine ⟨sid, List.mem_cons_self _ _, r, hf, hd, r.job_id, ?_⟩
        rw [matchAndUpdate, hrd]
        simp only [hd]
      | some info =>
        rcases ih (fun x hx => hdict x (List.mem_cons_of_mem _ hx))
            (fun x hx => hsome x (List.mem_cons_of_mem _ hx)) with
          ⟨sid2, hmem2, r2, h1, h2, jid2, herr⟩ |
          ⟨hall, pairs, hok, hmap, hpt⟩
        · left
          refine ⟨sid2, List.mem_cons_of_mem _ hmem2, r2, h1, h2, jid2, ?_⟩
          rw [matchAndUpdate, hrd]
          simp only [hd, herr]
        · right
          constructor
          · intro x hx
            rcases List.mem_cons.mp hx with hx1 | hx2
            · subst hx1
              exact ⟨r, info, hf, hd⟩
            · exact hall x hx2
          · refine ⟨(sid, updatedRecord r info now) :: pairs, ?_, ?_, ?_⟩
            · rw [matchAndUpdate, hrd]
              simp only [hd, hok]
            · rw [List.map_cons, hmap]
            · intro p hp
              rcases List.mem_cons.mp hp with hp1 | hp2
              · subst hp1
                exact ⟨r, info, hf, hd, rfl⟩
              · exact hpt p hp2

/-- Claim C8: for a list of pending studies that all have records, with
known server names, reachable servers and the unique-job-id store
invariant, update_records raises IDISCommunicationException naming a study
and its job id exactly when the response of some queried server omits the
job id of one of those studies' records; and on a non-exceptional return
every record is updated from the response — last_status and
last_error_message from the matched job info and the last-checked
timestamp set to the current time — and persisted, one updated pair per
study in order. -/
theorem update_records_missing_job_iff
    (client : AnonClientTool) (servers : List String) (db : List IDISRecord)
    (studies : List String) (now : ℚ)
    (resp : String → List Nat → List JobInfo) (recs : List IDISRecord)
    (hrec : PendingAnon.get_records db studies = .ok recs)
    (hclient : ∀ sv ids, client.get_job_info_list sv ids = .ok (resp sv ids))
    (hsrv : ∀ r ∈ recs, r.server_name ∈ servers)
    (hsub : ∀ sv ids, ∀ info ∈ resp sv ids, info.job_id ∈ ids)
    (hjobs : (recs.map (fun x => x.job_id)).Nodup) :
    ((∃ sid jid, PendingAnon.update_records client servers db studies now
        = .error (.idisCommunicationMissingJob sid jid))
      ↔ ∃ sid ∈ studies, ∃ r, getForStudyId db sid = some r
          ∧ (resp r.server_name ((recs.filter
                (fun x => x.server_name == r.server_name)).map
                (fun x => x.job_id))).all
              (fun info => info.job_id != r.job_id) = true)
    ∧ ∀ pairs,
        PendingAnon.update_records client servers db studies now = .ok pairs →
        pairs.map (fun p => p.1) = studies
        ∧ ∀ p ∈ pairs, ∃ r info, getForStudyId db p.1 = some r
            ∧ info ∈ resp r.server_name ((recs.filter
                (fun x => x.server_name == r.server_name)).map
                (fun x => x.job_id))
            ∧ info.job_id = r.job_id
            ∧ p.2 = updatedRecord r info now := by
  obtain ⟨groups, hg1, hg2, hg3⟩ :=
    groupRecords_ok servers recs [] hsrv (by simp)
  have huniv : ∀ sv, groupGet groups sv
      = recs.filter (fun x => x.server_name == sv) := by
    intro sv
    rw [hg3 sv]
    rfl
  have hfetch := fetchJobInfos_ok client resp hclient groups
  have hur : PendingAnon.update_records client servers db studies now
      = matchAndUpdate recs ((groups.map
          (fun g => resp g.1 (g.2.map (fun x => x.job_id)))).flatten)
          now studies := by
    rw [PendingAnon.update_records, hrec]
    simp only [hg1, hfetch]
  have hmemrec : ∀ sid ∈ studies, ∀ r, getForStudyId db sid = some r →
      r ∈ recs := by
    intro sid hsid r hf
    have h1 := recordDict_of_get_records hrec sid hsid
    rw [hf] at h1
    exact recordDict_some_mem h1
  have hdl : ∀ sid ∈ studies, ∀ r, getForStudyId db sid = some r →
      dictLast ((groups.map
          (fun g => resp g.1 (g.2.map (fun x => x.job_id)))).flatten) r.job_id
        = dictLast (resp r.server_name ((recs.filter
            (fun x => x.server_name == r.server_name)).map
            (fun x => x.job_id))) r.job_id := by
    intro sid hsid r hf
    exact dictLast_flatten_groups resp recs hsub hjobs
      (hmemrec sid hsid r hf) groups hg2 huniv
  rcases matchAndUpdate_cases db recs
      ((groups.map (fun g => resp g.1 (g.2.map (fun x => x.job_id)))).flatten)
      now studies (recordDict_of_get_records hrec)
      (get_records_isSome hrec) with
    ⟨sid, hmem, r, hf, hnone, jid, herr⟩ | ⟨hall, pairs0, hok0, hmap0, hpt0⟩
  · constructor
    · constructor
      · intro _
        refine ⟨sid, hmem, r, hf, ?_⟩
        have hnone2 := hnone
        rw [hdl sid hmem r hf] at hnone2
        exact (dictLast_none_iff_all _ _).mp hnone2
      · intro _
        refine ⟨sid, jid, ?_⟩
        rw [hur]
        exact herr
    · intro pairs hok
      rw [hur, herr] at hok
      cases hok
  · constructor
    · constructor
      · rintro ⟨sid, jid, herr2⟩
        rw [hur, hok0] at herr2
        cases herr2
      · rintro ⟨sid, hmem, r, hf, hall2⟩
        exfalso
        obtain ⟨r2, info, hf2, hsome2⟩ := hall sid hmem
        rw [hf] at hf2
        cases hf2
        have h3 := hsome2
        rw [hdl sid hmem r hf] at h3
        rw [(dictLast_none_iff_all _ _).mpr hall2] at h3
        cases h3
    · intro pairs hok
      rw [hur, hok0] at hok
      cases hok
      refine ⟨hmap0, ?_⟩
      intro p hp
      obtain ⟨r, info, hf, hsome, hupd⟩ := hpt0 p hp
      have hpmem : p.1 ∈ studies := by
        rw [← hmap0]
        exact List.mem_map_of_mem _ hp
      have h3 := hsome
      rw [hdl p.1 hpmem r hf] at h3
      have h4 := dictLast_some_mem h3
      exact ⟨r, info, hf, h4.1, h4.2, hupd⟩

/-- Witness for claim C8 at a concrete input: one pending study s1 whose
record maps it to job 7 on server srvA; the server reports job 7 as DONE,
so update_records returns the updated pair and no communication fault. -/
theorem update_records_missing_job_iff_witness :
    PendingAnon.update_records client8 ["srvA"] db0 ["s1"] 0
      = .ok [("s1", updatedRecord record0
          { job_id := 7, status := JobStatus.DONE, error := none } 0)]
    ∧ ([("s1", updatedRecord record0
          { job_id := 7, status := JobStatus.DONE, error := none } 0)].map
        (fun p => p.1)) = ["s1"] := by
  have h := update_records_missing_job_iff client8 ["srvA"] db0 ["s1"] 0
    resp8 [record0] rfl (fun _ _ => rfl) (by decide)
    (fun sv ids info hinfo => by
      obtain ⟨j, hj, hje⟩ := List.mem_map.mp hinfo
      rw [← hje]
      exact hj)
    (by decide)
  have hre : PendingAnon.update_records client8 ["srvA"] db0 ["s1"] 0
      = .ok [("s1", updatedRecord record0
          { job_id := 7, status := JobStatus.DONE, error := none } 0)] := rfl
  exact ⟨hre, (h.2 _ hre).1⟩

theorem orphan_no_record {db : List IDISRecord} {sid : String} :
    (db.all (fun r => r.study_id != sid)) = true
      ↔ getForStudyId db sid = none := by
  rw [List.all_eq_true]
  unfold getForStudyId
  rw [List.find?_eq_none]
  constructor
  · intro h r hr hb
    exact (bne_iff_ne.mp (h r hr)) (eq_of_beq hb)
  · intro h r hr
    rw [bne_iff_ne]
    intro he
    exact h r hr (beq_iff_eq.mpr he)

theorem resolved_of_no_orphans {st : PipeState}
    (h : PendingAnon.get_all_orphaned_studies st.db st.pending = []) :
    PendingAnon.get_all_studies_resolved st = .ok st.pending := by
  unfold PendingAnon.get_all_studies_resolved
  have hf : st.pending.find?
      (fun sid => (getForStudyId st.db sid).isNone) = none := by
    rw [List.find?_eq_none]
    intro sid hsid hiso
    have hnone : getForStudyId st.db sid = none :=
      Option.isNone_iff_eq_none.mp hiso
    have hsm : sid ∈ PendingAnon.get_all_orphaned_studies st.db st.pending := by
      unfold PendingAnon.get_all_orphaned_studies
      exact List.mem_filter.mpr ⟨hsid, orphan_no_record.mpr hnone⟩
    rw [h] at hsm
    cases hsm
  rw [hf]

theorem resolved_error_of_orphan {st : PipeState} {sid0 : String}
    (hmem : sid0 ∈ st.pending) (hnorec : getForStudyId st.db sid0 = none) :
    ∃ sid, PendingAnon.get_all_studies_resolved st
      = .error (.recordNotFound sid) := by
  unfold PendingAnon.get_all_studies_resolved
  have hsome : (st.pending.find?
      (fun sid => (getForStudyId st.db sid).isNone)).isSome :=
    List.find?_isSome.mpr ⟨sid0, hmem, by rw [hnorec]; rfl⟩
  cases hf : st.pending.find?
      (fun sid => (getForStudyId st.db sid).isNone) with
  | none =>
    rw [hf] at hsome
    cases hsome
  | some sid =>
    exact ⟨sid, rfl⟩

theorem push_ids_no_collision :
    ∀ (ids src dst : List String), src.Nodup → ids.Nodup →
    (∀ i ∈ ids, i ∉ dst) →
    (Stage.push_ids src dst ids).1 = src.filter (fun s => decide (s ∉ ids))
    ∧ (Stage.push_ids src dst ids).2 = dst ++ ids := by
  intro ids
  induction ids with
  | nil =>
    intro src dst _ _ _
    constructor
    · simp [Stage.push_ids]
    · simp [Stage.push_ids]
  | cons i rest ih =>
    intro src dst hsrc hnd hnc
    have hid : i ∉ dst := hnc i (List.mem_cons_self _ _)
    have hnd2 := List.nodup_cons.mp hnd
    have hstep : Stage.push_ids src dst (i :: rest)
        = Stage.push_ids (src.erase i) (dst ++ [i]) rest := by
      unfold Stage.push_ids
      rw [List.foldl_cons]
      congr 1
      simp [hid]
    rw [hstep]
    have hnc2 : ∀ j ∈ rest, j ∉ dst ++ [i] := by
      intro j hj
      rw [List.mem_append]
      push_neg
      refine ⟨hnc j (List.mem_cons_of_mem _ hj), ?_⟩
      intro hji
      rw [List.mem_singleton] at hji
      exact hnd2.1 (hji ▸ hj)
    obtain ⟨h1, h2⟩ := ih (src.erase i) (dst ++ [i]) (hsrc.erase i)
      hnd2.2 hnc2
    constructor
    · rw [h1, List.Nodup.erase_eq_filter hsrc, List.filter_filter]
      apply List.filter_congr
      intro s _
      by_cases hsi : s = i
      · simp [hsi]
      · by_cases hsr : s ∈ rest
        · simp [hsi, hsr]
        · simp [hsi, hsr]
    · rw [h2, List.append_assoc]
      rfl

theorem push_ids_keeps_colliding (i0 : String) :
    ∀ (ids src dst : List String), i0 ∈ src → i0 ∈ dst →
    i0 ∈ (Stage.push_ids src dst ids).1 := by
  intro ids
  induction ids with
  | nil =>
    intro src dst h1 _
    simpa [Stage.push_ids] using h1
  | cons j rest ih =>
    intro src dst h1 h2
    unfold Stage.push_ids
    rw [List.foldl_cons]
    by_cases hj : j ∈ dst
    · have hred : (if j ∈ (src, dst).2 then (src, dst)
          else ((src, dst).1.erase j, (src, dst).2 ++ [j])) = (src, dst) := by
        simp [hj]
      rw [hred]
      exact ih src dst h1 h2
    · have hji : i0 ≠ j := fun he => hj (he ▸ h2)
      have hred : (if j ∈ (src, dst).2 then (src, dst)
          else ((src, dst).1.erase j, (src, dst).2 ++ [j]))
          = (src.erase j, dst ++ [j]) := by
        simp [hj]
      rw [hred]
      exact ih (src.erase j) (dst ++ [j])
        ((List.mem_erase_of_ne hji).mpr h1) (List.mem_append_left _ h2)

/-- Claim C6: whenever resolving the pending studies raises
RecordNotFound, the pipeline's get_pending_studies pushes exactly the
orphaned pending studies (those on disk with no matching record) to the
errored stage and retries obtaining the pending list exactly once more
(attempts = 2), returning the remaining studies; when an orphan cannot be
pushed (its id already sits in errored) the retry fails and that
RecordNotFound propagates to the caller; when no study is orphaned the
list is resolved on the first attempt and nothing is moved. -/
theorem get_pending_studies_orphan_recovery (st : PipeState)
    (hnodup : st.pending.Nodup) :
    (PendingAnon.get_all_orphaned_studies st.db st.pending = [] →
      DefaultPipeline.get_pending_studies st
        = { result := .ok st.pending, state := st, attempts := 1 })
    ∧ (PendingAnon.get_all_orphaned_studies st.db st.pending ≠ [] →
       (∀ i ∈ PendingAnon.get_all_orphaned_studies st.db st.pending,
          i ∉ st.errored) →
        DefaultPipeline.get_pending_studies st
          = { result := .ok (st.pending.filter
                (fun sid => (getForStudyId st.db sid).isSome)),
              state := { st with
                pending := st.pending.filter
                  (fun sid => (getForStudyId st.db sid).isSome),
                errored := st.errored
                  ++ PendingAnon.get_all_orphaned_studies st.db st.pending },
              attempts := 2 })
    ∧ (PendingAnon.get_all_orphaned_studies st.db st.pending ≠ [] →
       (∃ i ∈ PendingAnon.get_all_orphaned_studies st.db st.pending,
          i ∈ st.errored) →
        ∃ sid, (DefaultPipeline.get_pending_studies st).result
            = .error (.recordNotFound sid)
          ∧ (DefaultPipeline.get_pending_studies st).attempts = 2) := by
  have horphnodup : (PendingAnon.get_all_orphaned_studies
      st.db st.pending).Nodup := List.Nodup.filter _ hnodup
  refine ⟨?_, ?_, ?_⟩
  · intro h0
    unfold DefaultPipeline.get_pending_studies
    rw [resolved_of_no_orphans h0]
  · intro hne hnc
    obtain ⟨sid0, hsid0⟩ := List.exists_mem_of_ne_nil _ hne
    have hsid0f : sid0 ∈ st.pending
        ∧ (st.db.all (fun r => r.study_id != sid0)) = true := by
      have h2 := hsid0
      unfold PendingAnon.get_all_orphaned_studies at h2
      exact List.mem_filter.mp h2
    obtain ⟨sidE, hE⟩ :=
      resolved_error_of_orphan hsid0f.1 (orphan_no_record.mp hsid0f.2)
    obtain ⟨hp1, hp2⟩ := push_ids_no_collision
      (PendingAnon.get_all_orphaned_studies st.db st.pending)
      st.pending st.errored hnodup horphnodup hnc
    have hfeq : st.pending.filter (fun s => decide
        (s ∉ PendingAnon.get_all_orphaned_studies st.db st.pending))
        = st.pending.filter (fun sid => (getForStudyId st.db sid).isSome) := by
      apply List.filter_congr
      intro s hs
      cases hopt : getForStudyId st.db s with
      | none =>
        have hsor : s ∈ PendingAnon.get_all_orphaned_studies
            st.db st.pending := by
          unfold PendingAnon.get_all_orphaned_studies
          exact List.mem_filter.mpr ⟨hs, orphan_no_record.mpr hopt⟩
        simp [hsor]
      | some r =>
        have hsnor : s ∉ PendingAnon.get_all_orphaned_studies
            st.db st.pending := by
          intro hmem
          have h3 := hmem
          unfold PendingAnon.get_all_orphaned_studies at h3
          have h4 := (List.mem_filter.mp h3).2
          rw [orphan_no_record.mp h4] at hopt
          cases hopt
        simp [hsnor]
    have horph2 : PendingAnon.get_all_orphaned_studies st.db
        ((Stage.push_ids st.pending st.errored
          (PendingAnon.get_all_orphaned_studies st.db st.pending)).1) = [] := by
      rw [hp1, hfeq]
      unfold PendingAnon.get_all_orphaned_studies
      rw [List.filter_eq_nil_iff]
      intro s hs hpred
      have h5 := (List.mem_filter.mp hs).2
      rw [orphan_no_record.mp hpred] at h5
      cases h5
    have hres2 : PendingAnon.get_all_studies_resolved
        { st with
          pending := (Stage.push_ids st.pending st.errored
            (PendingAnon.get_all_orphaned_studies st.db st.pending)).1,
          errored := (Stage.push_ids st.pending st.errored
            (PendingAnon.get_all_orphaned_studies st.db st.pending)).2 }
        = .ok ((Stage.push_ids st.pending st.errored
            (PendingAnon.get_all_orphaned_studies st.db st.pending)).1) := by
      apply resolved_of_no_orphans
      exact horph2
    unfold DefaultPipeline.get_pending_studies
    rw [hE]
    simp only [hres2]
    rw [hp1, hp2, hfeq]
  · intro hne hcol
    obtain ⟨i0, hi0or, hi0err⟩ := hcol
    have hi0f : i0 ∈ st.pending
        ∧ (st.db.all (fun r => r.study_id != i0)) = true := by
      have h2 := hi0or
      unfold PendingAnon.get_all_orphaned_studies at h2
      exact List.mem_filter.mp h2
    have hi0norec := orphan_no_record.mp hi0f.2
    obtain ⟨sidE, hE⟩ := resolved_error_of_orphan hi0f.1 hi0norec
    have hkeep : i0 ∈ (Stage.push_ids st.pending st.errored
        (PendingAnon.get_all_orphaned_studies st.db st.pending)).1 :=
      push_ids_keeps_colliding i0 _ st.pending st.errored hi0f.1 hi0err
    obtain ⟨sid2, hE2⟩ := @resolved_error_of_orphan
      { st with
        pending := (Stage.push_ids st.pending st.errored
          (PendingAnon.get_all_orphaned_studies st.db st.pending)).1,
        errored := (Stage.push_ids st.pending st.errored
          (PendingAnon.get_all_orphaned_studies st.db st.pending)).2 }
      i0 hkeep hi0norec
    unfold DefaultPipeline.get_pending_studies
    rw [hE]
    refine ⟨sid2, ?_, ?_⟩ <;> simp [hE2]

/-- Witness for claim C6 at the concrete state: pending holds s1 (with a
record) and s2 (orphaned); one run moves exactly s2 to errored, retries
once and returns s1. -/
theorem get_pending_studies_orphan_recovery_witness :
    DefaultPipeline.get_pending_studies pipeSt6
      = { result := .ok ["s1"],
          state := { pipeSt6 with pending := ["s1"], errored := ["s2"] },
          attempts := 2 } := by
  have h := (get_pending_studies_orphan_recovery pipeSt6 (by decide)).2.1
    (by decide) (by decide)
  exact h

/-- Claim C7: after a successful status refresh over the pending studies,
the pipeline pushes every study whose job status is DONE to the finished
stage, every INACTIVE study to the trash stage and every ERROR study to
the errored stage, removing each from pending, while every ACTIVE study is
left untouched in the pending stage and appears in none of the other
stages. -/
theorem update_idis_status_routes_by_status
    (client : AnonClientTool) (servers : List String) (now : ℚ)
    (st : PipeState) (studies : List String)
    (statusOf : Nat → JobStatus) (recs : List IDISRecord)
    (hrec : PendingAnon.get_records st.db studies = .ok recs)
    (hclient : ∀ sv ids, client.get_job_info_list sv ids
      = .ok (ids.map (fun j =>
          { job_id := j, status := statusOf j, error := none })))
    (hsrv : ∀ r ∈ recs, r.server_name ∈ servers)
    (hjobs : (recs.map (fun x => x.job_id)).Nodup)
    (hstud : studies.Nodup)
    (hpend : ∀ s ∈ studies, s ∈ st.pending)
    (hpendnodup : st.pending.Nodup)
    (hdisj : ∀ s ∈ studies,
      s ∉ st.finished ∧ s ∉ st.trash ∧ s ∉ st.errored) :
    ∃ st2, DefaultPipeline.update_idis_status client servers now studies st
        = .ok st2
      ∧ ∀ s ∈ studies, ∀ r, getForStudyId st.db s = some r →
          (statusOf r.job_id = .DONE →
            s ∈ st2.finished ∧ s ∉ st2.pending)
          ∧ (statusOf r.job_id = .INACTIVE →
            s ∈ st2.trash ∧ s ∉ st2.pending)
          ∧ (statusOf r.job_id = .ERROR →
            s ∈ st2.errored ∧ s ∉ st2.pending)
          ∧ (statusOf r.job_id = .ACTIVE →
            s ∈ st2.pending ∧ s ∉ st2.finished ∧ s ∉ st2.trash
            ∧ s ∉ st2.errored) := by
  obtain ⟨groups, hg1, hg2, hg3⟩ :=
    groupRecords_ok servers recs [] hsrv (by simp)
  have huniv : ∀ sv, groupGet groups sv
      = recs.filter (fun x => x.server_name == sv) := by
    intro sv
    rw [hg3 sv]
    rfl
  have hfetch := fetchJobInfos_ok client
    (fun _ ids => ids.map (fun j =>
      { job_id := j, status := statusOf j, error := none })) hclient groups
  have hur : PendingAnon.update_records client servers st.db studies now
      = matchAndUpdate recs ((groups.map (fun g =>
          (g.2.map (fun x => x.job_id)).map (fun j =>
            ({ job_id := j, status := statusOf j,
               error := none } : JobInfo)))).flatten) now studies := by
    rw [PendingAnon.update_records, hrec]
    simp only [hg1, hfetch]
  have hmemrec : ∀ sid ∈ studies, ∀ r, getForStudyId st.db sid = some r →
      r ∈ recs := by
    intro sid hsid r hf
    have h1 := recordDict_of_get_records hrec sid hsid
    rw [hf] at h1
    exact recordDict_some_mem h1
  have hdl : ∀ sid ∈ studies, ∀ r, getForStudyId st.db sid = some r →
      dictLast ((groups.map (fun g =>
          (g.2.map (fun x => x.job_id)).map (fun j =>
            ({ job_id := j, status := statusOf j,
               error := none } : JobInfo)))).flatten) r.job_id
        = dictLast (((recs.filter
            (fun x => x.server_name == r.server_name)).map
            (fun x => x.job_id)).map (fun j =>
            ({ job_id := j, status := statusOf j,
               error := none } : JobInfo))) r.job_id := by
    intro sid hsid r hf
    exact dictLast_flatten_groups
      (fun _ ids => ids.map (fun j =>
        { job_id := j, status := statusOf j, error := none })) recs
      (fun sv ids info hinfo => by
        obtain ⟨j, hj, hje⟩ := List.mem_map.mp hinfo
        rw [← hje]
        exact hj)
      hjobs (hmemrec sid hsid r hf) groups hg2 huniv
  rcases matchAndUpdate_cases st.db recs
      ((groups.map (fun g =>
        (g.2.map (fun x => x.job_id)).map (fun j =>
          ({ job_id := j, status := statusOf j,
             error := none } : JobInfo)))).flatten)
      now studies (recordDict_of_get_records hrec)
      (get_records_isSome hrec) with
    ⟨sid, hmem, r, hf, hnone, _, _⟩ | ⟨hall, pairs, hok, hmap, hpt⟩
  · exfalso
    rw [hdl sid hmem r hf] at hnone
    have hrmem : r ∈ recs := hmemrec sid hmem r hf
    have hq : r.job_id ∈ (recs.filter
        (fun x => x.server_name == r.server_name)).map
        (fun x => x.job_id) :=
      List.mem_map_of_mem _ (List.mem_filter.mpr ⟨hrmem, by simp⟩)
    have hinfo : ({ job_id := r.job_id, status := statusOf r.job_id,
                    error := none } : JobInfo) ∈ ((recs.filter
          (fun x => x.server_name == r.server_name)).map
          (fun x => x.job_id)).map (fun j =>
          ({ job_id := j, status := statusOf j,
             error := none } : JobInfo)) :=
      List.mem_map_of_mem _ hq
    have hall2 := (dictLast_none_iff_all _ _).mp hnone
    rw [List.all_eq_true] at hall2
    have h2 := hall2 _ hinfo
    simp at h2
  · have hupd : PendingAnon.update_records client servers st.db studies now
        = .ok pairs := by
      rw [hur]
      exact hok
    have hpairsnodup : (pairs.map (fun p => p.1)).Nodup := by
      rw [hmap]
      exact hstud
    have hstatus_of_pair : ∀ p ∈ pairs, ∀ r,
        getForStudyId st.db p.1 = some r →
        p.2.last_status = some (statusOf r.job_id) := by
      intro p hp r hf
      obtain ⟨r2, info, hf2, hsome, hpupd⟩ := hpt p hp
      rw [hf] at hf2
      cases hf2
      have hps : p.1 ∈ studies := by
        rw [← hmap]
        exact List.mem_map_of_mem _ hp
      rw [hdl p.1 hps r hf] at hsome
      have h4 := dictLast_some_mem hsome
      obtain ⟨j, _, hje⟩ := List.mem_map.mp h4.1
      have hjid : j = r.job_id := by
        rw [← h4.2, ← hje]
      have hstat : info.status = statusOf r.job_id := by
        rw [← hje, hjid]
      rw [hpupd]
      unfold updatedRecord
      simp [hstat]
    have hmem_iff : ∀ s ∈ studies, ∀ r, getForStudyId st.db s = some r →
        ∀ (status : JobStatus),
        (s ∈ (pairs.filter
            (fun p => p.2.last_status == some status)).map (fun p => p.1)
          ↔ statusOf r.job_id = status) := by
      intro s hs r hf status
      constructor
      · intro hin
        obtain ⟨q, hqf, hq1⟩ := List.mem_map.mp hin
        have hqm := List.mem_filter.mp hqf
        have hqs : q.2.last_status = some status := eq_of_beq hqm.2
        have hq2 : getForStudyId st.db q.1 = some r := by
          rw [hq1]
          exact hf
        have := hstatus_of_pair q hqm.1 r hq2
        rw [this] at hqs
        exact Option.some.inj hqs
      · intro hstat
        have hs2 : s ∈ pairs.map (fun p => p.1) := by
          rw [hmap]
          exact hs
        obtain ⟨p, hp, hp1⟩ := List.mem_map.mp hs2
        have hp2 : getForStudyId st.db p.1 = some r := by
          rw [hp1]
          exact hf
        have hps := hstatus_of_pair p hp r hp2
        refine List.mem_map.mpr ⟨p, ?_, hp1⟩
        refine List.mem_filter.mpr ⟨hp, ?_⟩
        rw [hps, hstat]
        simp
    have hIdsSub : ∀ (status : JobStatus), ∀ s,
        s ∈ (pairs.filter
          (fun p => p.2.last_status == some status)).map (fun p => p.1) →
        s ∈ studies := by
      intro status s hsin
      rw [← hmap]
      obtain ⟨q, hqf, hq1⟩ := List.mem_map.mp hsin
      exact List.mem_map.mpr ⟨q, (List.mem_filter.mp hqf).1, hq1⟩
    have hIdsNodup : ∀ (status : JobStatus),
        ((pairs.filter
          (fun p => p.2.last_status == some status)).map
          (fun p => p.1)).Nodup := by
      intro status
      exact List.Nodup.sublist
        ((List.filter_sublist _).map _) hpairsnodup
    obtain ⟨dIds, hD⟩ : ∃ l, (pairs.filter
        (fun p => p.2.last_status == some JobStatus.DONE)).map
        (fun p => p.1) = l := ⟨_, rfl⟩
    obtain ⟨iIds, hI⟩ : ∃ l, (pairs.filter
        (fun p => p.2.last_status == some JobStatus.INACTIVE)).map
        (fun p => p.1) = l := ⟨_, rfl⟩
    obtain ⟨eIds, hEr⟩ : ∃ l, (pairs.filter
        (fun p => p.2.last_status == some JobStatus.ERROR)).map
        (fun p => p.1) = l := ⟨_, rfl⟩
    have hDnodup : dIds.Nodup := hD ▸ hIdsNodup JobStatus.DONE
    have hInodup : iIds.Nodup := hI ▸ hIdsNodup JobStatus.INACTIVE
    have hEnodup : eIds.Nodup := hEr ▸ hIdsNodup JobStatus.ERROR
    have hDsub : ∀ s, s ∈ dIds → s ∈ studies := hD ▸ hIdsSub JobStatus.DONE
    have hIsub : ∀ s, s ∈ iIds → s ∈ studies :=
      hI ▸ hIdsSub JobStatus.INACTIVE
    have hEsub : ∀ s, s ∈ eIds → s ∈ studies := hEr ▸ hIdsSub JobStatus.ERROR
    have hDiff : ∀ s ∈ studies, ∀ r, getForStudyId st.db s = some r →
        (s ∈ dIds ↔ statusOf r.job_id = JobStatus.DONE) := by
      intro s hs r hf
      rw [← hD]
      exact hmem_iff s hs r hf JobStatus.DONE
    have hIiff : ∀ s ∈ studies, ∀ r, getForStudyId st.db s = some r →
        (s ∈ iIds ↔ statusOf r.job_id = JobStatus.INACTIVE) := by
      intro s hs r hf
      rw [← hI]
      exact hmem_iff s hs r hf JobStatus.INACTIVE
    have hEiff : ∀ s ∈ studies, ∀ r, getForStudyId st.db s = some r →
        (s ∈ eIds ↔ statusOf r.job_id = JobStatus.ERROR) := by
      intro s hs r hf
      rw [← hEr]
      exact hmem_iff s hs r hf JobStatus.ERROR
    obtain ⟨hA1, hA2⟩ := push_ids_no_collision dIds st.pending st.finished
      hpendnodup hDnodup (fun i hi => (hdisj i (hDsub i hi)).1)
    have hp1nodup : ((Stage.push_ids st.pending st.finished dIds).1).Nodup := by
      rw [hA1]
      exact List.Nodup.filter _ hpendnodup
    obtain ⟨hB1, hB2⟩ := push_ids_no_collision iIds
      (Stage.push_ids st.pending st.finished dIds).1 st.trash
      hp1nodup hInodup (fun i hi => (hdisj i (hIsub i hi)).2.1)
    have hp2nodup : ((Stage.push_ids
        (Stage.push_ids st.pending st.finished dIds).1
        st.trash iIds).1).Nodup := by
      rw [hB1]
      exact List.Nodup.filter _ hp1nodup
    obtain ⟨hC1, hC2⟩ := push_ids_no_collision eIds
      (Stage.push_ids (Stage.push_ids st.pending st.finished dIds).1
        st.trash iIds).1
      st.errored hp2nodup hEnodup (fun i hi => (hdisj i (hEsub i hi)).2.2)
    refine ⟨{ pending := (Stage.push_ids
                (Stage.push_ids (Stage.push_ids st.pending st.finished
                    dIds).1 st.trash iIds).1 st.errored eIds).1,
              finished := (Stage.push_ids st.pending st.finished dIds).2,
              trash := (Stage.push_ids
                (Stage.push_ids st.pending st.finished dIds).1
                st.trash iIds).2,
              errored := (Stage.push_ids
                (Stage.push_ids (Stage.push_ids st.pending st.finished
                    dIds).1 st.trash iIds).1 st.errored eIds).2,
              db := applyPairs st.db pairs }, ?_, ?_⟩
    · rw [DefaultPipeline.update_idis_status, hupd]
      simp only [hD, hI, hEr]
    · dsimp only
      intro s hs r hf
      have hiffD := hDiff s hs r hf
      have hiffI := hIiff s hs r hf
      have hiffE := hEiff s hs r hf
      have hsp : s ∈ st.pending := hpend s hs
      have hnof := (hdisj s hs).1
      have hnot := (hdisj s hs).2.1
      have hnoe := (hdisj s hs).2.2
      have hmemp1 : s ∉ dIds →
          s ∈ (Stage.push_ids st.pending st.finished dIds).1 := by
        intro hnd
        rw [hA1]
        refine List.mem_filter.mpr ⟨hsp, ?_⟩
        simp [hnd]
      have hnotp1 : s ∈ dIds →
          s ∉ (Stage.push_ids st.pending st.finished dIds).1 := by
        intro hd hin
        rw [hA1] at hin
        have h5 := (List.mem_filter.mp hin).2
        simp at h5
        exact h5 hd
      refine ⟨?_, ?_, ?_, ?_⟩
      · intro hst
        have hd := hiffD.mpr hst
        constructor
        · rw [hA2]
          exact List.mem_append_right _ hd
        · intro hin
          rw [hC1] at hin
          have h5 := (List.mem_filter.mp hin).1
          rw [hB1] at h5
          have h6 := (List.mem_filter.mp h5).1
          exact hnotp1 hd h6
      · intro hst
        have hi := hiffI.mpr hst
        constructor
        · rw [hB2]
          exact List.mem_append_right _ hi
        · intro hin
          rw [hC1] at hin
          have h5 := (List.mem_filter.mp hin).1
          rw [hB1] at h5
          have h6 := (List.mem_filter.mp h5).2
          simp at h6
          exact h6 hi
      · intro hst
        have he := hiffE.mpr hst
        constructor
        · rw [hC2]
          exact List.mem_append_right _ he
        · intro hin
          rw [hC1] at hin
          have h5 := (List.mem_filter.mp hin).2
          simp at h5
          exact h5 he
      · intro hst
        have hndone : s ∉ dIds := by
          intro hin
          cases hiffD.mp hin ▸ hst
        have hninact : s ∉ iIds := by
          intro hin
          cases hiffI.mp hin ▸ hst
        have hnerr : s ∉ eIds := by
          intro hin
          cases hiffE.mp hin ▸ hst
        refine ⟨?_, ?_, ?_, ?_⟩
        · rw [hC1]
          refine List.mem_filter.mpr ⟨?_, by simp [hnerr]⟩
          rw [hB1]
          refine List.mem_filter.mpr ⟨?_, by simp [hninact]⟩
          exact hmemp1 hndone
        · rw [hA2]
          intro hin
          rcases List.mem_append.mp hin with h5 | h5
          · exact hnof h5
          · exact hndone h5
        · rw [hB2]
          intro hin
          rcases List.mem_append.mp hin with h5 | h5
          · exact hnot h5
          · exact hninact h5
        · rw [hC2]
          intro hin
          rcases List.mem_append.mp hin with h5 | h5
          · exact hnoe h5
          · exact hnerr h5

/-- Witness for claim C7 at a concrete state: four pending studies whose
jobs are DONE, INACTIVE, ERROR and ACTIVE respectively; the refresh pushes
s1 to finished, s2 to trash, s3 to errored and leaves s4 pending. -/
theorem update_idis_status_routes_by_status_witness :
    ∃ st2, DefaultPipeline.update_idis_status client7 ["srvA"] 0
        ["s1", "s2", "s3", "s4"] st7 = .ok st2
      ∧ ("s1" ∈ st2.finished ∧ "s1" ∉ st2.pending)
      ∧ ("s2" ∈ st2.trash ∧ "s2" ∉ st2.pending)
      ∧ ("s3" ∈ st2.errored ∧ "s3" ∉ st2.pending)
      ∧ ("s4" ∈ st2.pending ∧ "s4" ∉ st2.finished ∧ "s4" ∉ st2.trash
          ∧ "s4" ∉ st2.errored) := by
  obtain ⟨st2, heq, hP⟩ := update_idis_status_routes_by_status client7
    ["srvA"] 0 st7 ["s1", "s2", "s3", "s4"] statusOf7 db7 rfl
    (fun _ _ => rfl) (by decide) (by decide) (by decide) (by decide)
    (by decide) (by decide)
  refine ⟨st2, heq, ?_, ?_, ?_, ?_⟩
  · exact (hP "s1" (by decide) (db7.get ⟨0, by decide⟩) rfl).1 rfl
  · exact (hP "s2" (by decide) (db7.get ⟨1, by decide⟩) rfl).2.1 rfl
  · exact (hP "s3" (by decide) (db7.get ⟨2, by decide⟩) rfl).2.2.1 rfl
  · exact (hP "s4" (by decide) (db7.get ⟨3, by decide⟩) rfl).2.2.2 rfl

theorem isUnder_append (p r : List String) : isUnder p (p ++ r) = true := by
  induction p with
  | nil => rfl
  | cons a as ih => simp [isUnder, ih]

theorem isUnder_eq_of_length {p q : List String} (h : isUnder p q = true)
    (hlen : p.length = q.length) : p = q := by
  induction p generalizing q with
  | nil =>
    cases q with
    | nil => rfl
    | cons b bs => cases hlen
  | cons a as ih =>
    cases q with
    | nil => cases hlen
    | cons b bs =>
      simp only [isUnder, Bool.and_eq_true] at h
      have hab : a = b := eq_of_beq h.1
      have hl2 : as.length = bs.length := by
        simpa using hlen
      rw [hab, ih h.2 hl2]

theorem eq_append_basename_of_isUnder {p q : List String}
    (h : isUnder p q = true) (hlen : q.length = p.length + 1) :
    q = p ++ [basename q] := by
  induction p generalizing q with
  | nil =>
    cases q with
    | nil => cases hlen
    | cons b bs =>
      cases bs with
      | nil => rfl
      | cons c cs => simp at hlen
  | cons a as ih =>
    cases q with
    | nil => cases hlen
    | cons b bs =>
      simp only [isUnder, Bool.and_eq_true] at h
      have hab : a = b := eq_of_beq h.1
      have hl2 : bs.length = as.length + 1 := by
        simpa using hlen
      have hbs := ih h.2 hl2
      have hbn : basename (b :: bs) = basename bs := by
        cases bs with
        | nil => cases hl2
        | cons c cs => rfl
      rw [hbn, hab]
      rw [List.cons_append]
      rw [← hbs]

theorem foldl_append_eq {α β : Type} (f : α → List β) :
    ∀ (l : List α) (init : List β),
    l.foldl (fun acc x => acc ++ f x) init = init ++ (l.map f).flatten := by
  intro l
  induction l with
  | nil => intro init; simp
  | cons x xs ih =>
    intro init
    rw [List.foldl_cons, ih, List.map_cons, List.flatten_cons,
      List.append_assoc]

theorem lookup_filter_of_nodup {fs : FS}
    (hn : (fs.entries.map (fun e => e.1)).Nodup)
    (pred : List String × NodeKind → Bool) (p : List String) :
    FS.lookup ⟨fs.entries.filter pred⟩ p
      = match fs.lookup p with
        | some k => if pred (p, k) then some k else none
        | none => none := by
  obtain ⟨entries⟩ := fs
  simp only [FS.lookup]
  simp only [FS.lookup] at hn
  induction entries with
  | nil => rfl
  | cons e rest ih =>
    rw [List.map_cons] at hn
    have hn2 := List.nodup_cons.mp hn
    by_cases hep : (e.1 == p) = true
    · have hep2 : e.1 = p := eq_of_beq hep
      have hfind1 : List.find? (fun x => x.1 == p) (e :: rest) = some e :=
        List.find?_cons_of_pos _ hep
      rw [hfind1]
      by_cases hpr : pred e = true
      · have hfc : (e :: rest).filter pred = e :: rest.filter pred :=
          List.filter_cons_of_pos hpr
        rw [hfc]
        have hfind2 : List.find? (fun x => x.1 == p)
            (e :: rest.filter pred) = some e :=
          List.find?_cons_of_pos _ hep
        rw [hfind2]
        have he : e = (p, e.2) := by
          rw [← hep2]
        rw [he] at hpr
        simp [hpr]
      · rw [Bool.not_eq_true] at hpr
        have hfc : (e :: rest).filter pred = rest.filter pred :=
          List.filter_cons_of_neg (by simp [hpr])
        rw [hfc]
        have hnone : (rest.filter pred).find? (fun x => x.1 == p)
            = none := by
          rw [List.find?_eq_none]
          intro x hx hb
          have hxr := List.mem_of_mem_filter hx
          have hpmem : p ∈ rest.map (fun e => e.1) := by
            rw [← eq_of_beq hb]
            exact List.mem_map_of_mem _ hxr
          rw [hep2] at hn2
          exact hn2.1 hpmem
        rw [hnone]
        have he : e = (p, e.2) := by
          rw [← hep2]
        rw [he] at hpr
        simp [hpr]
    · have hfind1 : List.find? (fun x => x.1 == p) (e :: rest)
          = List.find? (fun x => x.1 == p) rest :=
        List.find?_cons_of_neg _ hep
      rw [hfind1]
      by_cases hpr : pred e = true
      · have hfc : (e :: rest).filter pred = e :: rest.filter pred :=
          List.filter_cons_of_pos hpr
        rw [hfc]
        have hfind2 : List.find? (fun x => x.1 == p) (e :: rest.filter pred)
            = List.find? (fun x => x.1 == p) (rest.filter pred) :=
          List.find?_cons_of_neg _ hep
        rw [hfind2]
        exact ih hn2.2
      · rw [Bool.not_eq_true] at hpr
        have hfc : (e :: rest).filter pred = rest.filter pred :=
          List.filter_cons_of_neg (by simp [hpr])
        rw [hfc]
        exact ih hn2.2

theorem mem_childrenNames {fs : FS} {p : List String} {n : String} :
    n ∈ fs.childrenNames p
      ↔ ∃ e ∈ fs.entries, e.1.length = p.length + 1
          ∧ isUnder p e.1 = true ∧ basename e.1 = n := by
  unfold FS.childrenNames
  rw [List.mem_filterMap]
  constructor
  · rintro ⟨e, he, hfe⟩
    by_cases hc : (e.1.length == p.length + 1 && isUnder p e.1) = true
    · rw [if_pos hc] at hfe
      rw [Bool.and_eq_true] at hc
      exact ⟨e, he, by simpa using hc.1, hc.2, Option.some.inj hfe⟩
    · rw [Bool.not_eq_true] at hc
      rw [hc] at hfe
      simp at hfe
  · rintro ⟨e, he, h1, h2, h3⟩
    refine ⟨e, he, ?_⟩
    have hc : (e.1.length == p.length + 1 && isUnder p e.1) = true := by
      rw [Bool.and_eq_true]
      exact ⟨by simpa using h1, h2⟩
    rw [if_pos hc, h3]

theorem childrenNames_nodup {fs : FS} (p : List String)
    (hn : (fs.entries.map (fun e => e.1)).Nodup) :
    (fs.childrenNames p).Nodup := by
  obtain ⟨entries⟩ := fs
  simp only [FS.childrenNames]
  simp only [] at hn
  induction entries with
  | nil => exact List.nodup_nil
  | cons e rest ih =>
    rw [List.map_cons] at hn
    have hn2 := List.nodup_cons.mp hn
    rw [List.filterMap_cons]
    by_cases hc : (e.1.length == p.length + 1 && isUnder p e.1) = true
    · rw [if_pos hc]
      rw [Bool.and_eq_true] at hc
      refine List.nodup_cons.mpr ⟨?_, ih hn2.2⟩
      intro hmem
      rw [List.mem_filterMap] at hmem
      obtain ⟨e2, he2, hfe2⟩ := hmem
      by_cases hc2 : (e2.1.length == p.length + 1 && isUnder p e2.1) = true
      · rw [if_pos hc2] at hfe2
        rw [Bool.and_eq_true] at hc2
        have hb2 : basename e2.1 = basename e.1 := Option.some.inj hfe2
        have heq1 : e.1 = p ++ [basename e.1] :=
          eq_append_basename_of_isUnder hc.2 (by simpa using hc.1)
        have heq2 : e2.1 = p ++ [basename e2.1] :=
          eq_append_basename_of_isUnder hc2.2 (by simpa using hc2.1)
        have : e.1 ∈ rest.map (fun e => e.1) := by
          rw [heq1, ← hb2, ← heq2]
          exact List.mem_map_of_mem _ he2
        exact hn2.1 this
      · rw [Bool.not_eq_true] at hc2
        rw [hc2] at hfe2
        simp at hfe2
    · rw [Bool.not_eq_true] at hc
      rw [hc]
      simp only [Bool.false_eq_true, if_false]
      exact ih hn2.2

theorem mem_get_all_studies {self : Stage} {fs : FS} {st : Study} :
    st ∈ self.get_all_studies fs
      ↔ ∃ s ∈ self.streams,
          ∃ n ∈ fs.childrenNames (self.get_path_for_stream s),
          st = { name := n, stream := s, stage := self } := by
  unfold Stage.get_all_studies
  rw [foldl_append_eq, List.nil_append, List.mem_flatten]
  constructor
  · rintro ⟨l, hl, hst⟩
    obtain ⟨s, hs, hls⟩ := List.mem_map.mp hl
    rw [← hls] at hst
    unfold Stage.get_studies at hst
    obtain ⟨n, hn, hstn⟩ := List.mem_map.mp hst
    exact ⟨s, hs, n, hn, hstn.symm⟩
  · rintro ⟨s, hs, n, hn, hst⟩
    refine ⟨self.get_studies s fs, List.mem_map_of_mem _ hs, ?_⟩
    unfold Stage.get_studies
    rw [hst]
    exact List.mem_map_of_mem _ hn

theorem isUnder_refl (p : List String) : isUnder p p = true := by
  have h := isUnder_append p []
  rwa [List.append_nil] at h

theorem path_of_listed_study {self : Stage} {fs : FS} {st : Study}
    (h : st ∈ self.get_all_studies fs) :
    ∃ s ∈ self.streams, st.stream = s
      ∧ st.path = self.get_path_for_stream s ++ [st.name] := by
  obtain ⟨s, hs, n, _, hst⟩ := mem_get_all_studies.mp h
  subst hst
  exact ⟨s, hs, rfl, rfl⟩

theorem listed_study_path_length {self : Stage} {fs : FS} {st : Study}
    (h : st ∈ self.get_all_studies fs) :
    st.path.length = self.path.length + 2 := by
  obtain ⟨s, _, _, hp⟩ := path_of_listed_study h
  rw [hp]
  unfold Stage.get_path_for_stream
  simp

theorem get_all_studies_paths_nodup {self : Stage} {fs : FS}
    (hentries : (fs.entries.map (fun e => e.1)).Nodup)
    (hstreams : (self.streams.map (fun s => s.name)).Nodup) :
    ((self.get_all_studies fs).map Study.path).Nodup := by
  unfold Stage.get_all_studies
  rw [foldl_append_eq, List.nil_append, List.map_flatten]
  rw [List.nodup_flatten]
  constructor
  · intro l hl
    rw [List.map_map] at hl
    obtain ⟨s, _, hls⟩ := List.mem_map.mp hl
    rw [← hls]
    simp only [Function.comp]
    unfold Stage.get_studies
    rw [List.map_map]
    have hcomp : (Study.path ∘ fun n =>
        ({ name := n, stream := s, stage := self } : Study))
        = fun n => self.get_path_for_stream s ++ [n] := rfl
    rw [hcomp]
    refine List.Nodup.map ?_ (childrenNames_nodup _ hentries)
    intro a b hab
    simpa using List.append_cancel_left hab
  · rw [List.map_map, List.pairwise_map]
    refine List.Pairwise.imp ?_ (List.pairwise_map.mp hstreams)
    intro a b hne p hpa hpb
    obtain ⟨st, hst, hstp⟩ := List.mem_map.mp hpa
    obtain ⟨st2, hst2, hst2p⟩ := List.mem_map.mp hpb
    unfold Stage.get_studies at hst hst2
    obtain ⟨n, _, hstn⟩ := List.mem_map.mp hst
    obtain ⟨n2, _, hst2n⟩ := List.mem_map.mp hst2
    rw [← hstn] at hstp
    rw [← hst2n] at hst2p
    have hp1 : p = self.path ++ [a.name, n] := by
      rw [← hstp]
      show self.get_path_for_stream a ++ [n] = _
      unfold Stage.get_path_for_stream
      rw [List.append_assoc]
      rfl
    have hp2 : p = self.path ++ [b.name, n2] := by
      rw [← hst2p]
      show self.get_path_for_stream b ++ [n2] = _
      unfold Stage.get_path_for_stream
      rw [List.append_assoc]
      rfl
    rw [hp1] at hp2
    have hinj := List.append_cancel_left hp2
    simp at hinj
    exact hne hinj.1

theorem delete_all_loop_ok :
    ∀ (L : List Study) (fs : FS),
    (fs.entries.map (fun e => e.1)).Nodup →
    (∀ st ∈ L, fs.lookup st.path = some .dir) →
    (L.map Study.path).Nodup →
    (∀ st ∈ L, ∀ st2 ∈ L, st.path.length = st2.path.length) →
    ∃ fs2, Trash.delete_all_loop fs L = .ok fs2
      ∧ fs2.entries = fs.entries.filter
          (fun e => L.all (fun st => !(isUnder st.path e.1))) := by
  intro L
  induction L with
  | nil =>
    intro fs _ _ _ _
    refine ⟨fs, rfl, ?_⟩
    simp
  | cons st rest ih =>
    intro fs hn hdirs hnodup hlen
    have hst := hdirs st (List.mem_cons_self _ _)
    have hrm : shutilRmtree fs st.path
        = .ok ⟨fs.entries.filter (fun e => !(isUnder st.path e.1))⟩ := by
      unfold shutilRmtree
      rw [hst]
    have hn1 : (((fs.entries.filter
        (fun e => !(isUnder st.path e.1))).map (fun e => e.1))).Nodup :=
      List.Nodup.sublist ((List.filter_sublist _).map _) hn
    have hnodup2 := List.nodup_cons.mp (by
      rw [List.map_cons] at hnodup
      exact hnodup)
    have hdirs1 : ∀ st2 ∈ rest, FS.lookup
        ⟨fs.entries.filter (fun e => !(isUnder st.path e.1))⟩ st2.path
        = some .dir := by
      intro st2 hst2
      rw [lookup_filter_of_nodup hn _ _, hdirs st2 (List.mem_cons_of_mem _ hst2)]
      have hnu : isUnder st.path st2.path = false := by
        by_contra hcon
        rw [Bool.not_eq_false] at hcon
        have heql := hlen st (List.mem_cons_self _ _) st2
          (List.mem_cons_of_mem _ hst2)
        have := isUnder_eq_of_length hcon heql
        exact hnodup2.1 (this ▸ List.mem_map_of_mem _ hst2)
      simp [hnu]
    obtain ⟨fs2, h1, h2⟩ := ih ⟨fs.entries.filter
        (fun e => !(isUnder st.path e.1))⟩ hn1 hdirs1 hnodup2.2
      (fun a ha b hb => hlen a (List.mem_cons_of_mem _ ha)
        b (List.mem_cons_of_mem _ hb))
    refine ⟨fs2, ?_, ?_⟩
    · rw [Trash.delete_all_loop]
      simp only [hrm]
      exact h1
    · rw [h2]
      simp only []
      rw [List.filter_filter]
      apply List.filter_congr
      intro e _
      rw [List.all_cons]
      cases isUnder st.path e.1 <;>
        cases hall : rest.all (fun s2 => !(isUnder s2.path e.1)) <;>
        simp [hall]

/-- Claim C10: Trash.delete_all removes the on-disk directory of exactly
the studies currently listed under the stage's registered streams (the
filesystem keeps precisely the entries not lying under a listed study's
folder, so entries of unregistered streams are untouched), an immediately
following get_all_studies returns the empty list, and the stage's root
directory and every registered stream's directory still exist afterwards.
Hypotheses: filesystem paths are unique, registered stream names are
distinct, root and stream folders exist as directories, and every listed
study entry is a directory. -/
theorem trash_delete_all_exact (self : Stage) (fs : FS)
    (hentries : (fs.entries.map (fun e => e.1)).Nodup)
    (hstreams : (self.streams.map (fun s => s.name)).Nodup)
    (hroot : fs.lookup self.path = some .dir)
    (hstreamdirs : ∀ s ∈ self.streams,
      fs.lookup (self.get_path_for_stream s) = some .dir)
    (hdirs : ∀ st ∈ self.get_all_studies fs,
      fs.lookup st.path = some .dir) :
    ∃ fs2, Trash.delete_all self fs = .ok fs2
      ∧ fs2.entries = fs.entries.filter (fun e =>
          (self.get_all_studies fs).all (fun st => !(isUnder st.path e.1)))
      ∧ self.get_all_studies fs2 = []
      ∧ fs2.lookup self.path = some .dir
      ∧ ∀ s ∈ self.streams,
          fs2.lookup (self.get_path_for_stream s) = some .dir := by
  have hlen : ∀ st ∈ self.get_all_studies fs,
      ∀ st2 ∈ self.get_all_studies fs,
      st.path.length = st2.path.length := by
    intro st h1 st2 h2
    rw [listed_study_path_length h1, listed_study_path_length h2]
  obtain ⟨fs2, h1, h2⟩ := delete_all_loop_ok (self.get_all_studies fs) fs
    hentries hdirs (get_all_studies_paths_nodup hentries hstreams) hlen
  have hlook : ∀ p, fs2.lookup p
      = match fs.lookup p with
        | some k => if (self.get_all_studies fs).all
            (fun st => !(isUnder st.path p)) then some k else none
        | none => none := by
    intro p
    have hl := lookup_filter_of_nodup hentries
      (fun e => (self.get_all_studies fs).all
        (fun st => !(isUnder st.path e.1))) p
    have hfs2 : fs2 = ⟨fs.entries.filter (fun e =>
        (self.get_all_studies fs).all
          (fun st => !(isUnder st.path e.1)))⟩ := by
      obtain ⟨e2⟩ := fs2
      simp only [] at h2
      rw [h2]
    rw [hfs2]
    exact hl
  refine ⟨fs2, ?_, h2, ?_, ?_, ?_⟩
  · rw [Trash.delete_all]
    exact h1
  · unfold Stage.get_all_studies
    rw [foldl_append_eq, List.nil_append, List.flatten_eq_nil_iff]
    intro l hl
    obtain ⟨s, hs, hls⟩ := List.mem_map.mp hl
    rw [← hls]
    unfold Stage.get_studies
    rw [List.map_eq_nil_iff]
    unfold FS.childrenNames
    rw [List.filterMap_eq_nil_iff]
    intro e he
    rw [h2] at he
    have hef := List.mem_filter.mp he
    by_cases hc : (e.1.length == (self.get_path_for_stream s).length + 1
        && isUnder (self.get_path_for_stream s) e.1) = true
    · exfalso
      rw [Bool.and_eq_true] at hc
      have hlen1 : e.1.length = (self.get_path_for_stream s).length + 1 := by
        simpa using hc.1
      have he1 : e.1 = self.get_path_for_stream s ++ [basename e.1] :=
        eq_append_basename_of_isUnder hc.2 hlen1
      have hstm : ({ name := basename e.1, stream := s, stage := self }
          : Study) ∈ self.get_all_studies fs :=
        mem_get_all_studies.mpr ⟨s, hs, basename e.1,
          mem_childrenNames.mpr ⟨e, hef.1, hlen1, hc.2, rfl⟩, rfl⟩
      have hallp := List.all_eq_true.mp hef.2 _ hstm
      have hpath : ({ name := basename e.1, stream := s, stage := self }
          : Study).path = e.1 := by
        conv_rhs => rw [he1]
        rfl
      rw [hpath] at hallp
      rw [isUnder_refl] at hallp
      simp at hallp
    · rw [Bool.not_eq_true] at hc
      rw [hc]
      simp
  · rw [hlook, hroot]
    have hall : (self.get_all_studies fs).all
        (fun st => !(isUnder st.path self.path)) = true := by
      rw [List.all_eq_true]
      intro st hstm
      by_contra hcon
      rw [Bool.not_eq_true] at hcon
      simp at hcon
      have := isUnder_length hcon
      rw [listed_study_path_length hstm] at this
      omega
    rw [hall]
    simp
  · intro s hs
    rw [hlook, hstreamdirs s hs]
    have hall : (self.get_all_studies fs).all
        (fun st => !(isUnder st.path (self.get_path_for_stream s)))
        = true := by
      rw [List.all_eq_true]
      intro st hstm
      by_contra hcon
      rw [Bool.not_eq_true] at hcon
      simp at hcon
      have hle := isUnder_length hcon
      rw [listed_study_path_length hstm] at hle
      unfold Stage.get_path_for_stream at hle
      simp at hle
    rw [hall]
    simp

/-- Witness for C10: the concrete trash scenario — unique paths, distinct
stream names, root, stream folders and listed studies all directories —
evaluated at trashStage over fsTrash. -/
theorem trash_delete_all_exact_witness :
    (fsTrash.entries.map (fun e => e.1)).Nodup
    ∧ (trashStage.streams.map (fun s => s.name)).Nodup
    ∧ fsTrash.lookup trashStage.path = some .dir
    ∧ (∀ s ∈ trashStage.streams,
        fsTrash.lookup (trashStage.get_path_for_stream s) = some .dir)
    ∧ (∀ st ∈ trashStage.get_all_studies fsTrash,
        fsTrash.lookup st.path = some .dir)
    ∧ ∃ fs2, Trash.delete_all trashStage fsTrash = .ok fs2
      ∧ fs2.entries = fsTrash.entries.filter (fun e =>
          (trashStage.get_all_studies fsTrash).all
            (fun st => !(isUnder st.path e.1)))
      ∧ trashStage.get_all_studies fs2 = []
      ∧ fs2.lookup trashStage.path = some .dir
      ∧ ∀ s ∈ trashStage.streams,
          fs2.lookup (trashStage.get_path_for_stream s) = some .dir :=
  ⟨by decide, by decide, by decide, by decide, by decide,
   trash_delete_all_exact trashStage fsTrash (by decide) (by decide)
     (by decide) (by decide) (by decide)⟩

/-- Claim C5: when a study is pushed to the pending stage, the post-push
hook resets rather than recreates. If a record for the study's id exists,
the one external call made is a reset of the recorded job id (so on a
non-exceptional return the record store is unchanged — the record count
for the study stays 1); if no record exists and job creation succeeds, the
one external call is a job creation on the first configured server and
exactly one new record, holding the returned job id and that server's
name, is persisted. -/
theorem assert_active_idis_job_reset_or_create
    (client : AnonClientTool) (server : String) (rest : List String)
    (db : List IDISRecord) (sid : String) :
    (∀ r, getForStudyId db sid = some r →
      (PendingAnon.assert_active_idis_job client (server :: rest) db
        sid).calls = [.resetJob server r.job_id]
      ∧ ∀ db2, (PendingAnon.assert_active_idis_job client (server :: rest)
          db sid).result = .ok db2 → db2 = db)
    ∧ (getForStudyId db sid = none →
      ∀ jid, client.create_path_job server sid = .ok jid →
        (PendingAnon.assert_active_idis_job client (server :: rest) db
          sid).calls = [.createJob server sid]
        ∧ (PendingAnon.assert_active_idis_job client (server :: rest) db
            sid).result
          = .ok (db ++ [{ study_id := sid, job_id := jid,
                          server_name := server, last_status := none,
                          last_error_message := none,
                          last_check := none }])) := by
  constructor
  · intro r hr
    simp only [PendingAnon.assert_active_idis_job, hr]
    by_cases hs : (client.reset_job server r.job_id).startsWith "Error" = true
    · simp only [hs, if_true]
      exact ⟨trivial, fun db2 h => Except.noConfusion h⟩
    · rw [Bool.not_eq_true] at hs
      simp only [hs, Bool.false_eq_true, if_false]
      exact ⟨trivial, fun db2 h => (Except.ok.inj h).symm⟩
  · intro hn jid hc
    simp only [PendingAnon.assert_active_idis_job, hn, hc]
    exact ⟨trivial, trivial⟩

/-- Witness for claim C5: with the mocked client, the reset branch at the
store holding record0 (study s1, job 7) makes exactly the reset call and
keeps the store; the create branch at the empty store makes exactly the
create call and persists one record with job id 42 and the server name. -/
theorem assert_active_idis_job_reset_or_create_witness :
    ((PendingAnon.assert_active_idis_job client0 ["srv1"] db0 "s1").calls
        = [.resetJob "srv1" 7]
      ∧ ∀ db2, (PendingAnon.assert_active_idis_job client0 ["srv1"] db0
          "s1").result = .ok db2 → db2 = db0)
    ∧ ((PendingAnon.assert_active_idis_job client0 ["srv1"] [] "s1").calls
        = [.createJob "srv1" "s1"]
      ∧ (PendingAnon.assert_active_idis_job client0 ["srv1"] [] "s1").result
        = .ok [{ study_id := "s1", job_id := 42, server_name := "srv1",
                 last_status := none, last_error_message := none,
                 last_check := none }]) :=
  ⟨(assert_active_idis_job_reset_or_create client0 "srv1" [] db0 "s1").1
      record0 (by decide),
   (assert_active_idis_job_reset_or_create client0 "srv1" [] [] "s1").2
      (by decide) 42 rfl⟩

end Idissend
